import Mathlib

/-!
Verification of the core scene-graph and boxed-text subsystem of the Echo
repository (`src/node.hpp` / `src/node.cpp` / `src/main.hpp` / `src/main.cpp`,
the canonical header/source grid-game variant).

The C++ code is shallowly embedded:

* machine floats (`float`) are modelled as exact rationals `ℚ`;
* `int` is modelled as `Int`;
* the `shared_ptr`/`weak_ptr` node heap is modelled as a list of node records
  indexed by allocation order, with `Option Nat` for the non-owning
  back-references (`parent`, `grid`, `level`, ...);
* external raylib collaborators (glyph metrics, codepoint decoding, default
  font, key polling, drawing primitives) are parameters: fonts carry abstract
  metric functions, drawing is modelled as a list of emitted draw commands,
  and input is a record of pressed keys;
* the unbounded C++ recursions (tree traversals, the rewinding text-layout
  loop) take an explicit fuel argument; termination theorems show a concrete
  fuel bound suffices for the text loops.
-/

set_option maxHeartbeats 1000000

namespace Echo

/-- Raylib `Vector2`, with `float` fields modelled as `ℚ`. -/
structure V2 where
  x : ℚ
  y : ℚ
deriving DecidableEq, Repr

/-- Raylib `Rectangle`, with `float` fields modelled as `ℚ`. -/
structure Rect where
  x : ℚ
  y : ℚ
  width : ℚ
  height : ℚ
deriving DecidableEq, Repr

/-- Raylib `Color` (r,g,b,a bytes). -/
structure Color where
  r : Nat
  g : Nat
  b : Nat
  a : Nat
deriving DecidableEq, Repr

def WHITE : Color := ⟨255, 255, 255, 255⟩
def BLUE : Color := ⟨0, 121, 241, 255⟩
def RED : Color := ⟨230, 41, 55, 255⟩
def YELLOW : Color := ⟨253, 249, 0, 255⟩
def BLACK : Color := ⟨0, 0, 0, 255⟩
def RAYWHITE : Color := ⟨245, 245, 245, 255⟩

/-- Source `rect_extrude(Rectangle rect, float extrude)` from `main.hpp`. -/
def rect_extrude (rect : Rect) (extrude : ℚ) : Rect :=
  ⟨rect.x - extrude, rect.y - extrude,
   rect.width + 2 * extrude, rect.height + 2 * extrude⟩

/-- Source `rect_extrude(Rectangle rect, float extrude_x, float extrude_y)`. -/
def rect_extrude2 (rect : Rect) (extrude_x extrude_y : ℚ) : Rect :=
  ⟨rect.x - extrude_x, rect.y - extrude_y,
   rect.width + 2 * extrude_x, rect.height + 2 * extrude_y⟩

/-- C++ `std::clamp(v, lo, hi)`: `v < lo ? lo : hi < v ? hi : v`.
Matches the source only when `lo ≤ hi` (otherwise C++ has undefined
behaviour); theorems about grids therefore assume positive dimensions. -/
def stdClamp (v lo hi : Int) : Int :=
  if v < lo then lo else if hi < v then hi else v

namespace Grid

/-- Source `Grid::cell_size_x` (`constexpr static int cell_size_x = 10`). -/
def cell_size_x : Int := 10

/-- Source `Grid::cell_size_y` (`constexpr static int cell_size_y = 10`). -/
def cell_size_y : Int := 10

/-- Source `Grid::clamp_point(int& x, int& y)`:
`x = std::clamp(x, 0, width); y = std::clamp(y, 0, height);`.
The two reference parameters are modelled by returning the pair. -/
def clamp_point (width height x y : Int) : Int × Int :=
  (stdClamp x 0 width, stdClamp y 0 height)

/-- Source `Grid::clamp_cell(int& x, int& y)`:
`x = std::clamp(x, 0, width - 1); y = std::clamp(y, 0, height - 1);`. -/
def clamp_cell (width height x y : Int) : Int × Int :=
  (stdClamp x 0 (width - 1), stdClamp y 0 (height - 1))

end Grid

/-!
Boxed-text layout (`node.cpp`, `DrawTextBoxedSelectable` and
`MeasureBoxedTextHeight`).

The font and the codepoint decoder are external raylib collaborators:

* a `Font` carries its integer `baseSize` together with abstract per-codepoint
  metrics `glyphAdvanceX cp` (= `font.glyphs[GetGlyphIndex(font,cp)].advanceX`)
  and `glyphRecWidth cp` (= `font.recs[GetGlyphIndex(font,cp)].width`), plus an
  abstract `measureTextEx` used by the non-boxed `TextRenderer` branch;
* `GetCodepoint(&text[i], &count)` is a parameter `dec : List Nat → Int × Nat`
  applied to the byte suffix `text.drop i`; raylib guarantees the returned
  byte count is at least 1, which theorems take as a hypothesis.

The text is the byte string as a `List Nat` (no interior NUL bytes, so
`TextLength text` is `text.length`).
-/

/-- Raylib `Font`: the integer `baseSize` plus abstract glyph metrics. -/
structure Font where
  baseSize : Int
  glyphAdvanceX : Int → ℚ
  glyphRecWidth : Int → ℚ
  measureTextEx : List Nat → ℚ → ℚ → V2

/-- Commands emitted by `DrawTextBoxedSelectable` (the `font` argument of the
raylib primitives is the function's own font parameter and is omitted from the
command payload). -/
inductive TCmd where
  | rectangleRec (r : Rect) (c : Color)
  | textCodepoint (cp : Int) (pos : V2) (fontSize : ℚ) (c : Color)
deriving DecidableEq, Repr

/-- Scan context of `MeasureBoxedTextHeight`. -/
structure MCtx where
  font : Font
  text : List Nat
  maxWidth : ℚ
  fontSize : ℚ
  spacing : ℚ
  wordWrap : Bool
  dec : List Nat → Int × Nat

/-- Scan context of `DrawTextBoxedSelectable` (the mutable `selectStart` is
part of the state; the other parameters are fixed; the source parameter
`Rectangle rec` is the field `rect`, renamed because `rec` is reserved). -/
structure DCtx where
  font : Font
  text : List Nat
  rect : Rect
  fontSize : ℚ
  spacing : ℚ
  wordWrap : Bool
  tint : Color
  selectLength : Int
  selectTint : Color
  selectBackTint : Color
  dec : List Nat → Int × Nat

/-- Loop variables shared verbatim by the two scanning loops:
`i`, `k`, the `MEASURE_STATE`/`DRAW_STATE` flag (`stateDraw = true` is
`DRAW_STATE`), `startLine`, `endLine`, `lastk`, `textOffsetX`, `textOffsetY`. -/
structure Core where
  i : Int
  k : Int
  stateDraw : Bool
  startLine : Int
  endLine : Int
  lastk : Int
  textOffsetX : ℚ
  textOffsetY : ℚ
deriving DecidableEq, Repr

/-- State of the `MeasureBoxedTextHeight` loop: the shared loop variables plus
the `maxOffsetY` accumulator. -/
structure MState where
  core : Core
  maxOffsetY : ℚ
deriving DecidableEq, Repr

/-- State of the `DrawTextBoxedSelectable` loop: the shared loop variables plus
the mutable `selectStart` and the draw commands emitted so far. -/
structure DState where
  core : Core
  selectStart : Int
  draws : List TCmd
deriving DecidableEq, Repr

/-- The `i++, k++` increment of the scanning `for` loops. -/
def incIK (s : Core) : Core := { s with i := s.i + 1, k := s.k + 1 }

/-- Loop-head invariant of both scanning loops: `startLine` is at least its
initial `-1` and the scan index sits strictly beyond `startLine`. -/
def coreInv (s : Core) : Prop := -1 ≤ s.startLine ∧ s.startLine + 1 ≤ s.i

/-- Decreasing measure justifying termination of the scanning loops over a
text of length `L`: lexicographically, `startLine` grows, a `MEASURE` phase
precedes its `DRAW` phase, and within a phase `i` grows. -/
def coreFuel (L : Nat) (s : Core) : Nat :=
  ((L : Int) - s.startLine).toNat * (2 * (L + 1)) +
  (if s.stateDraw = false then L + 1 else 0) +
  ((L : Int) - s.i).toNat

/-- Shared glyph-advance expression:
`(font.glyphs[index].advanceX == 0) ? font.recs[index].width*scaleFactor
: font.glyphs[index].advanceX*scaleFactor`. -/
def glyphWidthBase (font : Font) (scaleFactor : ℚ) (cp : Int) : ℚ :=
  if font.glyphAdvanceX cp = 0 then font.glyphRecWidth cp * scaleFactor
  else font.glyphAdvanceX cp * scaleFactor

/-- Line advance `(font.baseSize + font.baseSize/2)*scaleFactor` — note the
integer division on `int baseSize`. -/
def lineAdvance (font : Font) (scaleFactor : ℚ) : ℚ :=
  ((font.baseSize + font.baseSize / 2 : Int) : ℚ) * scaleFactor

/-- Scaled glyph height `font.baseSize*scaleFactor`. -/
def glyphHeight (font : Font) (scaleFactor : ℚ) : ℚ :=
  (font.baseSize : ℚ) * scaleFactor

/-- Common tail of the `DRAW_STATE` iteration of `MeasureBoxedTextHeight`:
the word-wrap line switch at `i == endLine` (`k = lastk`) followed by the
trailing `textOffsetX` advance (the `avoid leading spaces` rule). -/
def measureFinish (c : MCtx) (scaleFactor : ℚ) (i codepoint : Int) (glyphWidth : ℚ)
    (t : MState) : MState :=
  if c.wordWrap = true ∧ i = t.core.endLine then
    { t with core := { t.core with
        i := i, k := t.core.lastk,
        stateDraw := false,
        startLine := t.core.endLine, endLine := -1,
        textOffsetY := t.core.textOffsetY + lineAdvance c.font scaleFactor,
        textOffsetX := 0 } }
  else
    { t with core := { t.core with
        i := i,
        textOffsetX :=
          if t.core.textOffsetX ≠ 0 ∨ codepoint ≠ 32
          then t.core.textOffsetX + glyphWidth else t.core.textOffsetX } }

/-- Loop body of `MeasureBoxedTextHeight` (one iteration of the `for` loop,
without the `i++, k++` loop increment). -/
def measureBody (c : MCtx) (s : MState) : MState :=
  let length : Int := c.text.length
  let scaleFactor : ℚ := c.fontSize / (c.font.baseSize : ℚ)
  let d0 := c.dec (c.text.drop s.core.i.toNat)
  let codepoint : Int := d0.1
  let codepointByteCount : Int := if codepoint = 63 then 1 else (d0.2 : Int)
  let i : Int := s.core.i + (codepointByteCount - 1)
  let glyphWidth : ℚ :=
    if codepoint = 10 then 0
    else glyphWidthBase c.font scaleFactor codepoint +
      (if i + 1 < length then c.spacing else 0)
  if s.core.stateDraw = false then
    let endLine : Int :=
      if codepoint = 32 ∨ codepoint = 9 ∨ codepoint = 10 then i else s.core.endLine
    if s.core.textOffsetX + glyphWidth > c.maxWidth then
      let e1 : Int := if endLine < 1 then i else endLine
      let e2 : Int := if i = e1 then e1 - codepointByteCount else e1
      let e3 : Int :=
        if s.core.startLine + codepointByteCount = e2 then i - codepointByteCount else e2
      { s with core := { s.core with
          i := s.core.startLine, k := s.core.lastk,
          stateDraw := true, endLine := e3, lastk := s.core.k - 1,
          textOffsetX := 0 } }
    else if i + 1 = length then
      { s with core := { s.core with
          i := s.core.startLine, k := s.core.lastk,
          stateDraw := true, endLine := i, lastk := s.core.k - 1,
          textOffsetX := 0 } }
    else if codepoint = 10 then
      { s with core := { s.core with
          i := s.core.startLine, k := s.core.lastk,
          stateDraw := true, endLine := endLine, lastk := s.core.k - 1,
          textOffsetX := 0 } }
    else
      { s with core := { s.core with
          i := i, endLine := endLine,
          textOffsetX :=
            if s.core.textOffsetX ≠ 0 ∨ codepoint ≠ 32
            then s.core.textOffsetX + glyphWidth else s.core.textOffsetX } }
  else
    if codepoint = 10 then
      let textOffsetY1 : ℚ :=
        if c.wordWrap = false
        then s.core.textOffsetY + lineAdvance c.font scaleFactor else s.core.textOffsetY
      let textOffsetX1 : ℚ :=
        if c.wordWrap = false then 0 else s.core.textOffsetX
      measureFinish c scaleFactor i codepoint glyphWidth
        { s with core :=
            { s.core with textOffsetY := textOffsetY1, textOffsetX := textOffsetX1 } }
    else
      let textOffsetY1 : ℚ :=
        if c.wordWrap = false ∧ s.core.textOffsetX + glyphWidth > c.maxWidth
        then s.core.textOffsetY + lineAdvance c.font scaleFactor else s.core.textOffsetY
      let textOffsetX1 : ℚ :=
        if c.wordWrap = false ∧ s.core.textOffsetX + glyphWidth > c.maxWidth
        then 0 else s.core.textOffsetX
      let maxOffsetY1 : ℚ :=
        if codepoint ≠ 32 ∧ codepoint ≠ 9
        then textOffsetY1 + glyphHeight c.font scaleFactor else s.maxOffsetY
      measureFinish c scaleFactor i codepoint glyphWidth
        { core :=
            { s.core with textOffsetY := textOffsetY1, textOffsetX := textOffsetX1 },
          maxOffsetY := maxOffsetY1 }

/-- The `for (int i = 0, k = 0; i < length; i++, k++)` loop of
`MeasureBoxedTextHeight`, with explicit fuel; `none` means the fuel ran out
(the termination theorem shows `textFuel` suffices). -/
def measureLoop (c : MCtx) : Nat → MState → Option MState
  | 0, _ => none
  | fuel + 1, s =>
    if s.core.i < (c.text.length : Int) then
      let s1 := measureBody c s
      measureLoop c fuel { s1 with core := incIK s1.core }
    else some s

/-- Initial loop state shared by both functions:
`state = wordWrap ? MEASURE_STATE : DRAW_STATE`, `startLine = endLine = lastk
= -1`, offsets zero. -/
def coreInit (wordWrap : Bool) : Core :=
  { i := 0, k := 0, stateDraw := !wordWrap,
    startLine := -1, endLine := -1, lastk := -1,
    textOffsetX := 0, textOffsetY := 0 }

/-- Fuel bound for the scanning loops over a byte string of length `len`
(each measure/draw phase pair advances `startLine`, so a quadratic bound is
sufficient; see the termination theorems). -/
def textFuel (len : Nat) : Nat := 2 * (len + 1) * (len + 2) + 5

/-- Effective byte count consumed from a byte suffix by one loop iteration:
`GetCodepoint`'s count, overridden to 1 on decode failure
(`if (codepoint == 0x3f) codepointByteCount = 1`). -/
def effByteCount (dec : List Nat → Int × Nat) (l : List Nat) : Int :=
  if (dec l).1 = 63 then 1 else ((dec l).2 : Int)

/-- Source `MeasureBoxedTextHeight(Font font, const char *text, float maxWidth,
float fontSize, float spacing, bool wordWrap)`; `dec` is the external
`GetCodepoint`. Returns `maxOffsetY` (0 if the fuel bound were ever
insufficient, which the termination theorem excludes). -/
def MeasureBoxedTextHeight (font : Font) (dec : List Nat → Int × Nat)
    (text : List Nat) (maxWidth fontSize spacing : ℚ) (wordWrap : Bool) : ℚ :=
  match measureLoop
      { font := font, text := text, maxWidth := maxWidth, fontSize := fontSize,
        spacing := spacing, wordWrap := wordWrap, dec := dec }
      (textFuel text.length) { core := coreInit wordWrap, maxOffsetY := 0 } with
  | some s => s.maxOffsetY
  | none => 0

/-- Common tail of the `DRAW_STATE` iteration of `DrawTextBoxedSelectable`:
the word-wrap line switch at `i == endLine` (which also accumulates
`selectStart += lastk - k; k = lastk`) followed by the trailing
`textOffsetX` advance (the `avoid leading spaces` rule). -/
def drawFinish (c : DCtx) (scaleFactor : ℚ) (i codepoint : Int) (glyphWidth : ℚ)
    (t : DState) : DState :=
  if c.wordWrap = true ∧ i = t.core.endLine then
    { t with
      core := { t.core with
        i := i, k := t.core.lastk,
        stateDraw := false,
        startLine := t.core.endLine, endLine := -1,
        textOffsetY := t.core.textOffsetY + lineAdvance c.font scaleFactor,
        textOffsetX := 0 },
      selectStart := t.selectStart + (t.core.lastk - t.core.k) }
  else
    { t with core := { t.core with
        i := i,
        textOffsetX :=
          if t.core.textOffsetX ≠ 0 ∨ codepoint ≠ 32
          then t.core.textOffsetX + glyphWidth else t.core.textOffsetX } }

/-- Loop body of `DrawTextBoxedSelectable`; `Sum.inr` is the
`break` on the rectangle-height check. -/
def drawBody (c : DCtx) (s : DState) : DState ⊕ DState :=
  let length : Int := c.text.length
  let scaleFactor : ℚ := c.fontSize / (c.font.baseSize : ℚ)
  let d0 := c.dec (c.text.drop s.core.i.toNat)
  let codepoint : Int := d0.1
  let codepointByteCount : Int := if codepoint = 63 then 1 else (d0.2 : Int)
  let i : Int := s.core.i + (codepointByteCount - 1)
  let glyphWidth : ℚ :=
    if codepoint = 10 then 0
    else glyphWidthBase c.font scaleFactor codepoint +
      (if i + 1 < length then c.spacing else 0)
  if s.core.stateDraw = false then
    let endLine : Int :=
      if codepoint = 32 ∨ codepoint = 9 ∨ codepoint = 10 then i else s.core.endLine
    if s.core.textOffsetX + glyphWidth > c.rect.width then
      let e1 : Int := if endLine < 1 then i else endLine
      let e2 : Int := if i = e1 then e1 - codepointByteCount else e1
      let e3 : Int :=
        if s.core.startLine + codepointByteCount = e2 then i - codepointByteCount else e2
      .inl { s with core := { s.core with
          i := s.core.startLine, k := s.core.lastk,
          stateDraw := true, endLine := e3, lastk := s.core.k - 1,
          textOffsetX := 0 } }
    else if i + 1 = length then
      .inl { s with core := { s.core with
          i := s.core.startLine, k := s.core.lastk,
          stateDraw := true, endLine := i, lastk := s.core.k - 1,
          textOffsetX := 0 } }
    else if codepoint = 10 then
      .inl { s with core := { s.core with
          i := s.core.startLine, k := s.core.lastk,
          stateDraw := true, endLine := endLine, lastk := s.core.k - 1,
          textOffsetX := 0 } }
    else
      .inl { s with core := { s.core with
          i := i, endLine := endLine,
          textOffsetX :=
            if s.core.textOffsetX ≠ 0 ∨ codepoint ≠ 32
            then s.core.textOffsetX + glyphWidth else s.core.textOffsetX } }
  else
    if codepoint = 10 then
      let textOffsetY1 : ℚ :=
        if c.wordWrap = false
        then s.core.textOffsetY + lineAdvance c.font scaleFactor else s.core.textOffsetY
      let textOffsetX1 : ℚ :=
        if c.wordWrap = false then 0 else s.core.textOffsetX
      .inl (drawFinish c scaleFactor i codepoint glyphWidth
        { s with core :=
            { s.core with textOffsetY := textOffsetY1, textOffsetX := textOffsetX1 } })
    else
      let textOffsetY1 : ℚ :=
        if c.wordWrap = false ∧ s.core.textOffsetX + glyphWidth > c.rect.width
        then s.core.textOffsetY + lineAdvance c.font scaleFactor else s.core.textOffsetY
      let textOffsetX1 : ℚ :=
        if c.wordWrap = false ∧ s.core.textOffsetX + glyphWidth > c.rect.width
        then 0 else s.core.textOffsetX
      if textOffsetY1 + glyphHeight c.font scaleFactor > c.rect.height then
        .inr { s with core :=
            { s.core with textOffsetY := textOffsetY1, textOffsetX := textOffsetX1 } }
      else
        let isGlyphSelected : Bool :=
          decide (0 ≤ s.selectStart ∧ s.selectStart ≤ s.core.k ∧
            s.core.k < s.selectStart + c.selectLength)
        let draws2 : List TCmd :=
          if isGlyphSelected then
            s.draws ++
              [.rectangleRec
                ⟨c.rect.x + textOffsetX1 - 1, c.rect.y + textOffsetY1,
                 glyphWidth, glyphHeight c.font scaleFactor⟩
                c.selectBackTint]
          else s.draws
        let draws3 : List TCmd :=
          if codepoint ≠ 32 ∧ codepoint ≠ 9 then
            draws2 ++
              [.textCodepoint codepoint
                ⟨c.rect.x + textOffsetX1, c.rect.y + textOffsetY1⟩
                c.fontSize
                (if isGlyphSelected then c.selectTint else c.tint)]
          else draws2
        .inl (drawFinish c scaleFactor i codepoint glyphWidth
          { core :=
              { s.core with textOffsetY := textOffsetY1, textOffsetX := textOffsetX1 },
            selectStart := s.selectStart, draws := draws3 })

/-- The scanning loop of `DrawTextBoxedSelectable` with explicit fuel; the
`Bool` records whether the loop exited through the height-limit `break`. -/
def drawLoop (c : DCtx) : Nat → DState → Option (DState × Bool)
  | 0, _ => none
  | fuel + 1, s =>
    if s.core.i < (c.text.length : Int) then
      match drawBody c s with
      | .inr sb => some (sb, true)
      | .inl s1 =>
        drawLoop c fuel { s1 with core := incIK s1.core }
    else some (s, false)

/-- Full run of `DrawTextBoxedSelectable` (final state plus break flag). -/
def drawTextBoxedRun (font : Font) (dec : List Nat → Int × Nat) (text : List Nat)
    (rec : Rect) (fontSize spacing : ℚ) (wordWrap : Bool) (tint : Color)
    (selectStart selectLength : Int) (selectTint selectBackTint : Color) :
    DState × Bool :=
  match drawLoop
      { font := font, text := text, rect := rec, fontSize := fontSize,
        spacing := spacing, wordWrap := wordWrap, tint := tint,
        selectLength := selectLength, selectTint := selectTint,
        selectBackTint := selectBackTint, dec := dec }
      (textFuel text.length)
      { core := coreInit wordWrap, selectStart := selectStart, draws := [] } with
  | some r => r
  | none =>
    ({ core := coreInit wordWrap, selectStart := selectStart, draws := [] }, false)

/-- Source `DrawTextBoxedSelectable(...)`: the sequence of drawing commands
emitted. -/
def DrawTextBoxedSelectable (font : Font) (dec : List Nat → Int × Nat)
    (text : List Nat) (rec : Rect) (fontSize spacing : ℚ) (wordWrap : Bool)
    (tint : Color) (selectStart selectLength : Int)
    (selectTint selectBackTint : Color) : List TCmd :=
  (drawTextBoxedRun font dec text rec fontSize spacing wordWrap tint
    selectStart selectLength selectTint selectBackTint).1.draws

/-- Measuring context corresponding to a draw context: identical parameters
with `maxWidth := rec.width`, as in the two source signatures. -/
def mctxOf (c : DCtx) : MCtx :=
  { font := c.font, text := c.text, maxWidth := c.rect.width,
    fontSize := c.fontSize, spacing := c.spacing, wordWrap := c.wordWrap,
    dec := c.dec }

/-- Maximum vertical extent `textOffsetY + font.baseSize*scaleFactor` reached
by the glyphs of a draw-command list (selection rectangles do not count),
relative to the box top `recY`; `0` with no glyph — the quantity returned by
`MeasureBoxedTextHeight` according to the specification. -/
def maxGlyphExtent (recY bs : ℚ) : List TCmd → ℚ
  | [] => 0
  | TCmd.rectangleRec _ _ :: t => maxGlyphExtent recY bs t
  | TCmd.textCodepoint _ pos _ _ :: t =>
    max (pos.y - recY + bs) (maxGlyphExtent recY bs t)

/-- Relation between a draw-loop state and a measure-loop state: identical
scan variables, and `maxOffsetY` equal to the maximum glyph extent of the
commands emitted so far, which is bounded by the current line offset plus one
glyph height. -/
def measuresDraw (c : DCtx) (d : DState) (m : MState) : Prop :=
  d.core = m.core ∧
  m.maxOffsetY =
    maxGlyphExtent c.rect.y (glyphHeight c.font (c.fontSize / (c.font.baseSize : ℚ)))
      d.draws ∧
  maxGlyphExtent c.rect.y (glyphHeight c.font (c.fontSize / (c.font.baseSize : ℚ)))
      d.draws ≤ d.core.textOffsetY +
        glyphHeight c.font (c.fontSize / (c.font.baseSize : ℚ)) ∧
  0 ≤ d.core.textOffsetY

/-- Single-byte decoder used for concrete witnesses: ASCII bytes decode to
themselves with byte count 1, anything else decodes to the fallback `0x3f`
with byte count 1 (raylib behaviour on a lone malformed byte). -/
def asciiDec : List Nat → Int × Nat
  | [] => (63, 1)
  | b :: _ => if b < 128 then ((b : Int), 1) else (63, 1)

/-- Concrete test font for witnesses: base size 10, every glyph advance 5. -/
def testFont : Font :=
  { baseSize := 10,
    glyphAdvanceX := fun _ => 5,
    glyphRecWidth := fun _ => 5,
    measureTextEx := fun _ _ _ => ⟨0, 0⟩ }

def charWidth (font : Font) (scaleFactor spacing : ℚ) (text : List Nat) (j : Nat) : ℚ :=
  glyphWidthBase font scaleFactor (text.getD j 0 : Int) +
    (if j + 1 < text.length then spacing else 0)

def offXFrom (font : Font) (scaleFactor spacing : ℚ) (text : List Nat)
    (X0 : ℚ) (j : Nat) : Nat → ℚ
  | 0 => X0
  | n + 1 =>
    let x := offXFrom font scaleFactor spacing text X0 j n
    if x ≠ 0 ∨ (text.getD (j + n) 0 : Int) ≠ 32
    then x + charWidth font scaleFactor spacing text (j + n) else x

def eLSeq (text : List Nat) (eL0 : Int) (j : Nat) : Nat → Int
  | 0 => eL0
  | n + 1 =>
    if (text.getD (j + n) 0 : Int) = 32 ∨ (text.getD (j + n) 0 : Int) = 9 ∨
       (text.getD (j + n) 0 : Int) = 10
    then ((j + n : Nat) : Int) else eLSeq text eL0 j n

def glyphCmd (c : DCtx) (p : Nat) (X Y : ℚ) : List TCmd :=
  if (c.text.getD p 0 : Int) ≠ 32 ∧ (c.text.getD p 0 : Int) ≠ 9 then
    [TCmd.textCodepoint (c.text.getD p 0 : Int)
      ⟨c.rect.x + X, c.rect.y + Y⟩ c.fontSize c.tint]
  else []

def glyphCmds (c : DCtx) (X0 Y : ℚ) (j : Nat) : Nat → List TCmd
  | 0 => []
  | n + 1 => glyphCmds c X0 Y j n ++
      glyphCmd c (j + n)
        (offXFrom c.font (c.fontSize / (c.font.baseSize : ℚ)) c.spacing c.text X0 j n) Y

/-- The four movement keys sampled by `IsKeyPressed` during one frame. -/
structure Keys where
  w : Bool
  s : Bool
  a : Bool
  d : Bool

/-- The node classes of the scene graph that the claims mention (`Node`,
`Grid`, `Player`, `Satellite`, `Level`, `RectRenderer`, `CircleRenderer`);
virtual dispatch is a match on this tag. -/
inductive NKind where
  | plain
  | grid
  | player
  | satellite
  | level
  | rectR
  | circleR

/-- One heap node: the `Node` base fields (`parent` back-reference,
`children`, `position`, the three lifecycle flags) plus the fields of every
modelled subclass (unused fields keep their C++ default member values). -/
structure NodeData where
  kind : NKind
  parent : Option Nat
  children : List Nat
  position : V2
  initialized : Bool
  active : Bool
  visible : Bool
  color : Color
  rounding : ℚ
  rect : Rect
  radius : ℚ
  width : Int
  height : Int
  gridId : Option Nat
  levelId : Option Nat
  grid_x : Int
  grid_y : Int
  playerId : Option Nat
  satelliteId : Option Nat
  selected : Bool

/-- Defaults from the class definitions: `initialized = false`,
`active = visible = true`, `color = WHITE` (Renderable), `rounding = 0`
(RectRenderer), `radius = 5.0f` (CircleRenderer), `grid_x = grid_y = 0`
(GridNode), `selected = false` (Level); empty pointers model the
default-constructed smart pointers. -/
def NodeData.base (k : NKind) : NodeData :=
  { kind := k, parent := none, children := [], position := ⟨0, 0⟩,
    initialized := false, active := true, visible := true, color := WHITE,
    rounding := 0, rect := ⟨0, 0, 0, 0⟩, radius := 5,
    width := 0, height := 0, gridId := none, levelId := none,
    grid_x := 0, grid_y := 0, playerId := none, satelliteId := none,
    selected := false }

/-- The heap of `shared_ptr`-owned nodes, addressed by allocation index. -/
structure Scene where
  nodes : List NodeData

/-- Dereference a node id (nodes are never deallocated in the modelled
scenarios, so a stale id never appears where the source dereferences). -/
def Scene.get (s : Scene) (id : Nat) : NodeData :=
  s.nodes.getD id (NodeData.base .plain)

/-- Whether a weak pointer to `id` still locks. -/
def Scene.valid (s : Scene) (id : Nat) : Bool := id < s.nodes.length

def Scene.set (s : Scene) (id : Nat) (d : NodeData) : Scene :=
  ⟨s.nodes.set id d⟩

/-- `std::make_shared<T>(...)`: the new node's id is the previous heap size. -/
def Scene.alloc (s : Scene) (d : NodeData) : Scene := ⟨s.nodes ++ [d]⟩

/-- `Grid::Grid(int width, int height)`. -/
def Grid.mkData (w h : Int) : NodeData :=
  { NodeData.base .grid with width := w, height := h }

/-- `Player::Player(std::weak_ptr<Level> level)`. -/
def Player.mkData (lv : Nat) : NodeData :=
  { NodeData.base .player with levelId := some lv }

/-- `Grid::get_cell_rect(int x, int y)`. -/
def Grid.get_cell_rect (s : Scene) (g : Nat) (x y : Int) : Rect :=
  ⟨(s.get g).position.x + (x : ℚ) * (Grid.cell_size_x : ℚ),
   (s.get g).position.y + (y : ℚ) * (Grid.cell_size_y : ℚ),
   (Grid.cell_size_x : ℚ), (Grid.cell_size_y : ℚ)⟩

/-- `Grid::get_point(int x, int y)`. -/
def Grid.get_point (s : Scene) (g : Nat) (x y : Int) : V2 :=
  ⟨(Grid.get_cell_rect s g x y).x, (Grid.get_cell_rect s g x y).y⟩

/-- `Node::get_global_position()`: walks the parent back-references; the
fuel dominates the tree depth in every modelled scene. -/
def get_global_position (s : Scene) : Nat → Nat → V2
  | 0, _ => ⟨0, 0⟩
  | fuel + 1, id =>
    match (s.get id).parent with
    | none => (s.get id).position
    | some p =>
      ⟨(s.get id).position.x + (get_global_position s fuel p).x,
       (s.get id).position.y + (get_global_position s fuel p).y⟩

/-- `Node::get_global_rect(Rectangle local_rect)`. -/
def get_global_rect (s : Scene) (fuel : Nat) (id : Nat) (r : Rect) : Rect :=
  ⟨r.x + (get_global_position s fuel id).x,
   r.y + (get_global_position s fuel id).y, r.width, r.height⟩

/-- `Renderable::get_bounding_box()` of the modelled subclasses
(`dynamic_pointer_cast<Renderable>` fails on `Node` and `Level`, which do
not expose a bounding box). -/
def get_bounding_box? (s : Scene) (id : Nat) : Option Rect :=
  match (s.get id).kind with
  | .grid => some ⟨(s.get id).position.x, (s.get id).position.y,
      (((s.get id).width * Grid.cell_size_x : Int) : ℚ),
      (((s.get id).height * Grid.cell_size_y : Int) : ℚ)⟩
  | .rectR => some (s.get id).rect
  | .satellite => some (s.get id).rect
  | .circleR => some ⟨(s.get id).position.x - (s.get id).radius,
      (s.get id).position.y - (s.get id).radius,
      (s.get id).radius * 2, (s.get id).radius * 2⟩
  | .player => some ⟨(s.get id).position.x - (s.get id).radius,
      (s.get id).position.y - (s.get id).radius,
      (s.get id).radius * 2, (s.get id).radius * 2⟩
  | .plain => none
  | .level => none

/-- One step of `get_children_bounding_box`'s accumulation: children that do
not cast to `Renderable` are skipped, the rest fold min/max extents into
`(l, t, r, b)`. -/
def bbStep (s : Scene) (acc : ℚ × ℚ × ℚ × ℚ) (c : Nat) : ℚ × ℚ × ℚ × ℚ :=
  match get_bounding_box? s c with
  | none => acc
  | some bb =>
    ⟨min acc.1 bb.x, min acc.2.1 bb.y,
     max acc.2.2.1 (bb.x + bb.width), max acc.2.2.2 (bb.y + bb.height)⟩

/-- `Renderable::get_children_bounding_box()`: the min/max-extent fold over
the immediate children, seeded at `l = t = r = b = 0`. -/
def get_children_bounding_box (s : Scene) (id : Nat) : Rect :=
  let q := (s.get id).children.foldl (bbStep s) ((0, 0, 0, 0) : ℚ × ℚ × ℚ × ℚ)
  ⟨q.1, q.2.1, q.2.2.1 - q.1, q.2.2.2 - q.2.1⟩

/-- The state-changing lifecycle entry points; `addChild c` is
`add_child(c)` on the receiver. -/
inductive Op where
  | init
  | baseInit
  | update
  | activate
  | deactivate
  | setVisible (v : Bool)
  | addChild (c : Nat)

/-- One dispatcher for the mutually recursive lifecycle methods, structural
on fuel (every modelled scenario runs far below the bound). `baseInit` is
`Node::init` as invoked by `Base::init()` from an override. -/
def sceneOp (keys : Keys) : Nat → Op → Scene → Nat → Scene
  | 0, _, s, _ => s
  | fuel + 1, op, s, id =>
    match op with
    | .activate =>
      let s1 := s.set id { s.get id with active := true }
      (s1.get id).children.foldl (fun st c => sceneOp keys fuel .activate st c) s1
    | .deactivate =>
      let s1 := s.set id { s.get id with active := false }
      (s1.get id).children.foldl (fun st c => sceneOp keys fuel .deactivate st c) s1
    | .setVisible v =>
      let s1 := s.set id { s.get id with visible := v }
      (s1.get id).children.foldl (fun st c => sceneOp keys fuel (.setVisible v) st c) s1
    | .addChild c =>
      let s1 := s.set c { s.get c with parent := some id }
      let s2 := s1.set id { s1.get id with children := (s1.get id).children ++ [c] }
      let s3 := if (s2.get id).initialized then sceneOp keys fuel .init s2 c else s2
      let s4 := if (s3.get id).active then sceneOp keys fuel .activate s3 c else s3
      if (s4.get id).visible then sceneOp keys fuel (.setVisible (s4.get id).visible) s4 c
      else s4
    | .baseInit =>
      if (s.get id).initialized then s
      else
        let s1 := s.set id { s.get id with initialized := true }
        (s1.get id).children.foldl (fun st c => sceneOp keys fuel .init st c) s1
    | .update =>
      let s1 :=
        if (s.get id).active = false then s
        else (s.get id).children.foldl (fun st c => sceneOp keys fuel .update st c) s
      match (s1.get id).kind with
      | .player =>
        match (s1.get id).levelId with
        | none => s1
        | some lv =>
          if (s1.valid lv) = false ∨ (s1.get lv).selected = false then s1
          else
            let gy1 := (s1.get id).grid_y + (if keys.w then -1 else 0)
            let gy2 := gy1 + (if keys.s then 1 else 0)
            let gx1 := (s1.get id).grid_x + (if keys.a then -1 else 0)
            let gx2 := gx1 + (if keys.d then 1 else 0)
            match (s1.get lv).gridId with
            | none => s1
            | some g =>
              let gx3 := stdClamp gx2 0 (s1.get g).width
              let gy3 := stdClamp gy2 0 (s1.get g).height
              let s2 := s1.set id { s1.get id with grid_x := gx3, grid_y := gy3 }
              match (s2.get id).gridId with
              | none => s2
              | some g2 =>
                s2.set id { s2.get id with position := Grid.get_point s2 g2 gx3 gy3 }
      | _ => s1
    | .init =>
      match (s.get id).kind with
      | .player =>
        let s1 := sceneOp keys fuel .baseInit s id
        let s2 :=
          match (s1.get id).levelId with
          | none => s1
          | some lv => s1.set id { s1.get id with gridId := (s1.get lv).gridId }
        let s3 := s2.set id { s2.get id with radius := 5, color := BLUE }
        match (s3.get id).gridId with
        | none => s3
        | some g =>
          s3.set id { s3.get id with
            position := Grid.get_point s3 g (s3.get id).grid_x (s3.get id).grid_y }
      | .satellite =>
        let s1 := sceneOp keys fuel .baseInit s id
        s1.set id { s1.get id with rect := ⟨-5, -5, 10, 10⟩, color := RED }
      | .level =>
        let gid := s.nodes.length
        let s1 := s.alloc (Grid.mkData 7 6)
        let s2 := sceneOp keys fuel (.addChild gid) s1 id
        let s3 := s2.set id { s2.get id with gridId := some gid }
        let s4 := s3.set gid { s3.get gid with position := ⟨0, 0⟩ }
        let pid := s4.nodes.length
        let s5 := s4.alloc (Player.mkData id)
        let s6 := sceneOp keys fuel (.addChild pid) s5 id
        let s7 := s6.set id { s6.get id with playerId := some pid }
        let s8 := s7.set pid { s7.get pid with grid_x := 0, grid_y := 0 }
        let sid := s8.nodes.length
        let s9 := s8.alloc (NodeData.base .satellite)
        let s10 := sceneOp keys fuel (.addChild sid) s9 id
        let s11 := s10.set id { s10.get id with satelliteId := some sid }
        let s12 := s11.set sid { s11.get sid with
            position := Grid.get_point s11 gid 5 5 }
        sceneOp keys fuel .baseInit s12 id
      | _ => sceneOp keys fuel .baseInit s id

/-- Drawing commands emitted by `render()` in the modelled subtree
(`DrawRectangleLinesEx`, `DrawRectangleRec`, `DrawRectangleRounded`,
`DrawCircleV`). -/
inductive RCmd where
  | rectLines (r : Rect) (thick : ℚ) (c : Color)
  | rectFill (r : Rect) (c : Color)
  | rectRounded (r : Rect) (rounding : ℚ) (c : Color)
  | circle (center : V2) (radius : ℚ) (c : Color)

/-- `render()`: `Node::render` recurses into children only when `visible`;
each override draws its own shapes unconditionally, before (`RectRenderer`,
`CircleRenderer`) or after (`Grid`, `Level`) the base call, exactly as in
the source. -/
def renderNode (s : Scene) : Nat → Nat → List RCmd
  | 0, _ => []
  | fuel + 1, id =>
    let base : List RCmd :=
      if (s.get id).visible then
        (s.get id).children.foldl (fun acc c => acc ++ renderNode s fuel c) []
      else []
    match (s.get id).kind with
    | .plain => base
    | .level =>
      base ++
        (if (s.get id).selected then
          match (s.get id).gridId with
          | none => []
          | some g =>
            match get_bounding_box? s g with
            | none => []
            | some bb =>
              [.rectLines (get_global_rect s (fuel + 1) g (rect_extrude bb 10)) 2 RED]
        else [])
    | .grid =>
      base ++
        (List.range (s.get id).width.toNat).foldl (fun acc i =>
          acc ++ (List.range (s.get id).height.toNat).foldl (fun acc2 j =>
            acc2 ++ [.rectLines
              (get_global_rect s (fuel + 1) id (Grid.get_cell_rect s id (i : Int) (j : Int)))
              1 BLACK]) []) []
    | .rectR =>
      (if (s.get id).rounding > 0 then
        [.rectRounded (get_global_rect s (fuel + 1) id (s.get id).rect)
          (s.get id).rounding (s.get id).color]
      else
        [.rectFill (get_global_rect s (fuel + 1) id (s.get id).rect) (s.get id).color]) ++
      base
    | .satellite =>
      (if (s.get id).rounding > 0 then
        [.rectRounded (get_global_rect s (fuel + 1) id (s.get id).rect)
          (s.get id).rounding (s.get id).color]
      else
        [.rectFill (get_global_rect s (fuel + 1) id (s.get id).rect) (s.get id).color]) ++
      base
    | .circleR =>
      [.circle (get_global_position s (fuel + 1) id) (s.get id).radius BLUE] ++ base
    | .player =>
      [.circle (get_global_position s (fuel + 1) id) (s.get id).radius BLUE] ++ base

/-- Key state with nothing pressed. -/
def noKeys : Keys := ⟨false, false, false, false⟩

/-- `Node::init()` (virtual entry point). -/
def Node.init (fuel : Nat) (s : Scene) (id : Nat) : Scene :=
  sceneOp noKeys fuel .init s id

/-- `Node::update()` under one frame's key state. -/
def Node.update (keys : Keys) (fuel : Nat) (s : Scene) (id : Nat) : Scene :=
  sceneOp keys fuel .update s id

/-- `Node::render()`. -/
def Node.render (fuel : Nat) (s : Scene) (id : Nat) : List RCmd :=
  renderNode s fuel id

/-- `Node::add_child(child)`. -/
def Node.add_child (fuel : Nat) (s : Scene) (p c : Nat) : Scene :=
  sceneOp noKeys fuel (.addChild c) s p

/-- `Node::remove_child(child)`: `std::remove` shifts the matches out and the
single `erase` drops the tail slot; for a child that occurs once this deletes
exactly its entry. The parent back-reference of the removed child is not
touched. -/
def Node.remove_child (s : Scene) (p c : Nat) : Scene :=
  s.set p { s.get p with children := (s.get p).children.filter (fun x => x != c) }

/-- `Node::clear_children()`: resets every child's parent back-reference,
then clears the list. -/
def Node.clear_children (s : Scene) (p : Nat) : Scene :=
  let s1 := (s.get p).children.foldl
    (fun st c => st.set c { st.get c with parent := none }) s
  s1.set p { s1.get p with children := [] }

/-- `Node::set_active(bool)`. -/
def Node.set_active (keys : Keys) (fuel : Nat) (s : Scene) (id : Nat) (b : Bool) : Scene :=
  if b then sceneOp keys fuel .activate s id else sceneOp keys fuel .deactivate s id

/-- An invisible plain node owning a renderer child. -/
def c2aScene : Scene :=
  ⟨[{ NodeData.base .plain with visible := false, children := [1] }, { NodeData.base .rectR with rect := ⟨1, 2, 3, 4⟩ }]⟩

/-- A single inactive plain node. -/
def c2bScene : Scene := ⟨[{ NodeData.base .plain with active := false }]⟩

/-- A single invisible sharp-cornered rectangle renderer. -/
def c2cScene : Scene :=
  ⟨[{ NodeData.base .rectR with visible := false, rect := ⟨1, 2, 3, 4⟩ }]⟩

/-- The initialized demo level selected as in `Root::init` (node 0 the
level, 1 the 7×6 grid, 2 the player, 3 the satellite). -/
def c3Scene0 : Scene :=
  Scene.set (Node.init 6 (⟨[NodeData.base .level]⟩ : Scene) 0) 0
    { Scene.get (Node.init 6 (⟨[NodeData.base .level]⟩ : Scene) 0) 0 with selected := true }

/-- The level node as `Level::init` plus `Root::init`'s selection leave it. -/
def c3Level : NodeData :=
  { NodeData.base .level with children := [1, 2, 3], initialized := true, gridId := some 1, playerId := some 2, satelliteId := some 3, selected := true }

/-- The 7×6 grid child after initialization. -/
def c3Grid : NodeData :=
  { Grid.mkData 7 6 with parent := some 0, position := ⟨0, 0⟩, initialized := true }

/-- The player child after initialization (at cell (0, 0), blue, radius 5). -/
def c3Player : NodeData :=
  { Player.mkData 0 with parent := some 0, initialized := true, gridId := some 1, color := BLUE, position := ⟨0, 0⟩ }

/-- The satellite child after initialization. -/
def c3Sat : NodeData :=
  { NodeData.base .satellite with parent := some 0, initialized := true, rect := ⟨-5, -5, 10, 10⟩, color := RED, position := ⟨50, 50⟩ }

/-- The demo scene with the player's cell and position overridden. -/
def c3Scene (gx gy : Int) (p : V2) : Scene :=
  ⟨[c3Level, c3Grid, { c3Player with grid_x := gx, grid_y := gy, position := p }, c3Sat]⟩

/-- `n` frames of holding the right-move key from the initial scene. -/
def c3RunD : Nat → Scene
  | 0 => c3Scene0
  | n + 1 => Node.update ⟨false, false, false, true⟩ 6 (c3RunD n) 0

/-- The selected demo scene with the player deactivated. -/
def c2Scene : Scene :=
  ⟨[c3Level, c3Grid, { c3Player with active := false }, c3Sat]⟩

/-- `add_child`, first half: the child's parent back-reference is set. -/
def addChildStep1 (s : Scene) (p c : Nat) : Scene :=
  s.set c { s.get c with parent := some p }

/-- `add_child`, second half: the child is appended to the receiver's list. -/
def addChildStep2 (s : Scene) (p c : Nat) : Scene :=
  (addChildStep1 s p c).set p
    { (addChildStep1 s p c).get p with
        children := ((addChildStep1 s p c).get p).children ++ [c] }

/-- `add_child`'s conditional `init` replay. -/
def addChildStep3 (k : Keys) (fuel : Nat) (s : Scene) (p c : Nat) : Scene :=
  if ((addChildStep2 s p c).get p).initialized then
    sceneOp k fuel .init (addChildStep2 s p c) c
  else addChildStep2 s p c

/-- `add_child`'s conditional `activate` replay. -/
def addChildStep4 (k : Keys) (fuel : Nat) (s : Scene) (p c : Nat) : Scene :=
  if ((addChildStep3 k fuel s p c).get p).active then
    sceneOp k fuel .activate (addChildStep3 k fuel s p c) c
  else addChildStep3 k fuel s p c

/-- The whole body of `Node::add_child`. -/
def addChildRun (k : Keys) (fuel : Nat) (s : Scene) (p c : Nat) : Scene :=
  if ((addChildStep4 k fuel s p c).get p).visible then
    sceneOp k fuel (.setVisible ((addChildStep4 k fuel s p c).get p).visible)
      (addChildStep4 k fuel s p c) c
  else addChildStep4 k fuel s p c

theorem stdClamp_mem {v lo hi : Int} (h : lo ≤ hi) :
    lo ≤ stdClamp v lo hi ∧ stdClamp v lo hi ≤ hi := by
  unfold stdClamp
  split
  · exact ⟨le_refl lo, h⟩
  · split
    · exact ⟨h, le_refl hi⟩
    · omega

theorem stdClamp_id {v lo hi : Int} (h1 : lo ≤ v) (h2 : v ≤ hi) :
    stdClamp v lo hi = v := by
  unfold stdClamp
  split
  · omega
  · split
    · omega
    · rfl

/-- C7: for every grid with positive dimensions `width × height` and every
integer input pair `(x, y)`, `clamp_cell` maps into
`[0, width-1] × [0, height-1]` and `clamp_point` into `[0, width] × [0, height]`;
the upper bounds differ by exactly one in each axis, and in-range inputs are
returned unchanged by both. -/
theorem C7_clamp_semantics (width height x y : Int)
    (hw : 1 ≤ width) (hh : 1 ≤ height) :
    (0 ≤ (Grid.clamp_cell width height x y).1 ∧
       (Grid.clamp_cell width height x y).1 ≤ width - 1 ∧
     0 ≤ (Grid.clamp_cell width height x y).2 ∧
       (Grid.clamp_cell width height x y).2 ≤ height - 1) ∧
    (0 ≤ (Grid.clamp_point width height x y).1 ∧
       (Grid.clamp_point width height x y).1 ≤ width ∧
     0 ≤ (Grid.clamp_point width height x y).2 ∧
       (Grid.clamp_point width height x y).2 ≤ height) ∧
    (width - (width - 1) = 1 ∧ height - (height - 1) = 1) ∧
    ((0 ≤ x → x ≤ width - 1 → 0 ≤ y → y ≤ height - 1 →
        Grid.clamp_cell width height x y = (x, y)) ∧
     (0 ≤ x → x ≤ width → 0 ≤ y → y ≤ height →
        Grid.clamp_point width height x y = (x, y))) := by
  constructor
  · have h1 := @stdClamp_mem x 0 (width - 1) (by omega)
    have h2 := @stdClamp_mem y 0 (height - 1) (by omega)
    exact ⟨h1.1, h1.2, h2.1, h2.2⟩
  constructor
  · have h1 := @stdClamp_mem x 0 width (by omega)
    have h2 := @stdClamp_mem y 0 height (by omega)
    exact ⟨h1.1, h1.2, h2.1, h2.2⟩
  constructor
  · omega
  · constructor
    · intro a b c d
      unfold Grid.clamp_cell
      rw [stdClamp_id a b, stdClamp_id c d]
    · intro a b c d
      unfold Grid.clamp_point
      rw [stdClamp_id a b, stdClamp_id c d]

/-- C7 witness: the 7×6 grid used by the game, probed at boundary values:
`clamp_cell` caps x at 6 while `clamp_point` caps x at 7, and the in-range
point (3, 4) is unchanged. -/
theorem C7_clamp_semantics_witness :
    ((1 : Int) ≤ 7 ∧ (1 : Int) ≤ 6) ∧
    Grid.clamp_cell 7 6 100 100 = (6, 5) ∧
    Grid.clamp_point 7 6 100 100 = (7, 6) ∧
    Grid.clamp_cell 7 6 3 4 = (3, 4) ∧
    Grid.clamp_point 7 6 3 4 = (3, 4) := by
  refine ⟨⟨by decide, by decide⟩, by decide, by decide, ?_, ?_⟩
  · exact ((C7_clamp_semantics 7 6 3 4 (by decide) (by decide)).2.2.2.1
      (by decide) (by decide) (by decide) (by decide))
  · exact ((C7_clamp_semantics 7 6 3 4 (by decide) (by decide)).2.2.2.2
      (by decide) (by decide) (by decide) (by decide))

theorem coreFuel_lt_of_i_lt {L : Nat} {s s1 : Core}
    (hstart : s1.startLine = s.startLine) (hstate : s1.stateDraw = s.stateDraw)
    (hii : s.i < s1.i) (hiL : s.i < (L : Int)) :
    coreFuel L s1 < coreFuel L s := by
  unfold coreFuel
  rw [hstart, hstate]
  have h3 : ((L : Int) - s1.i).toNat < ((L : Int) - s.i).toNat := by omega
  omega

theorem coreFuel_lt_of_to_draw {L : Nat} {s s1 : Core}
    (hstart : s1.startLine = s.startLine)
    (hsm : s.stateDraw = false) (hsd : s1.stateDraw = true)
    (hi : 0 ≤ s1.i) :
    coreFuel L s1 < coreFuel L s := by
  unfold coreFuel
  rw [hstart, hsm, hsd]
  have ht : ((L : Int) - s1.i).toNat ≤ L := by omega
  have e1 : (if (true : Bool) = false then L + 1 else 0) = 0 := by simp
  have e2 : (if (false : Bool) = false then L + 1 else 0) = L + 1 := by simp
  rw [e1, e2]
  omega

theorem coreFuel_lt_of_startLine_lt {L : Nat} {s s1 : Core}
    (hss : s.startLine < s1.startLine) (hsL : s.startLine < (L : Int))
    (hi : 0 ≤ s1.i) :
    coreFuel L s1 < coreFuel L s := by
  unfold coreFuel
  have hA : ((L : Int) - s1.startLine).toNat < ((L : Int) - s.startLine).toNat := by
    omega
  have ht : ((L : Int) - s1.i).toNat ≤ L := by omega
  have hm := Nat.mul_le_mul_right (2 * (L + 1)) (Nat.succ_le_of_lt hA)
  simp only [Nat.succ_eq_add_one] at hm
  have h2 : (((L : Int) - s1.startLine).toNat + 1) * (2 * (L + 1))
      = ((L : Int) - s1.startLine).toNat * (2 * (L + 1)) + 2 * (L + 1) := by ring
  have hb1 : (if s1.stateDraw = false then L + 1 else 0) ≤ L + 1 := by
    split <;> omega
  have hb2 : (if s.stateDraw = false then L + 1 else 0) ≤ L + 1 := by
    split <;> omega
  omega

/-- Every iteration of the `MeasureBoxedTextHeight` loop preserves the loop
invariant and strictly decreases the fuel measure (given the raylib guarantee
that `GetCodepoint` consumes at least one byte). -/
theorem measureStep_dec (c : MCtx) (hdec : ∀ l, 1 ≤ (c.dec l).2)
    (s : MState) (hInv : coreInv s.core) (hlt : s.core.i < (c.text.length : Int)) :
    coreInv (incIK (measureBody c s).core) ∧
      coreFuel c.text.length (incIK (measureBody c s).core) <
        coreFuel c.text.length s.core := by
  obtain ⟨h1, h2⟩ := hInv
  have hc := hdec (c.text.drop s.core.i.toNat)
  simp only [measureBody]
  generalize hd : c.dec (c.text.drop s.core.i.toNat) = d0 at hc ⊢
  have hcbc : (1 : Int) ≤ if d0.1 = 63 then (1 : Int) else (d0.2 : Int) := by
    split <;> omega
  generalize hcb : (if d0.1 = 63 then (1 : Int) else (d0.2 : Int)) = cbc at hcbc ⊢
  generalize hgw : glyphWidthBase c.font (c.fontSize / (c.font.baseSize : ℚ)) d0.1 = gwb
  generalize hi1 : s.core.i + (cbc - 1) = i1
  generalize hgq : (if d0.1 = 10 then (0 : ℚ)
    else gwb + if i1 + 1 < (c.text.length : Int) then c.spacing else 0) = gwq
  generalize heL : (if d0.1 = 32 ∨ d0.1 = 9 ∨ d0.1 = 10 then i1 else s.core.endLine) = eL
  generalize he1 : (if eL < 1 then i1 else eL) = e1
  generalize he2 : (if i1 = e1 then e1 - cbc else e1) = e2
  generalize he3 : (if s.core.startLine + cbc = e2 then i1 - cbc else e2) = e3
  split_ifs <;>
    (try simp only [measureFinish]) <;>
    (try split_ifs) <;>
    refine ⟨by simp only [coreInv, incIK]; omega, ?_⟩ <;>
    first
      | exact coreFuel_lt_of_i_lt rfl rfl (by simp only [incIK]; omega) hlt
      | exact coreFuel_lt_of_to_draw rfl (by assumption) rfl
          (by simp only [incIK]; omega)
      | exact coreFuel_lt_of_startLine_lt (by simp only [incIK]; omega) (by omega)
          (by simp only [incIK]; omega)

/-- Every non-`break` iteration of the `DrawTextBoxedSelectable` loop preserves
the loop invariant and strictly decreases the fuel measure. -/
theorem drawStep_dec (c : DCtx) (hdec : ∀ l, 1 ≤ (c.dec l).2)
    (s : DState) (hInv : coreInv s.core) (hlt : s.core.i < (c.text.length : Int))
    (s1 : DState) (hstep : drawBody c s = .inl s1) :
    coreInv (incIK s1.core) ∧
      coreFuel c.text.length (incIK s1.core) < coreFuel c.text.length s.core := by
  obtain ⟨h1, h2⟩ := hInv
  have hc := hdec (c.text.drop s.core.i.toNat)
  simp only [drawBody] at hstep
  generalize hd : c.dec (c.text.drop s.core.i.toNat) = d0 at hc hstep
  have hcbc : (1 : Int) ≤ if d0.1 = 63 then (1 : Int) else (d0.2 : Int) := by
    split <;> omega
  generalize hcb : (if d0.1 = 63 then (1 : Int) else (d0.2 : Int)) = cbc at hcbc hstep
  generalize hgw : glyphWidthBase c.font (c.fontSize / (c.font.baseSize : ℚ)) d0.1
    = gwb at hstep
  generalize hi1 : s.core.i + (cbc - 1) = i1 at hstep
  generalize hgq : (if d0.1 = 10 then (0 : ℚ)
    else gwb + if i1 + 1 < (c.text.length : Int) then c.spacing else 0) = gwq at hstep
  generalize heL : (if d0.1 = 32 ∨ d0.1 = 9 ∨ d0.1 = 10 then i1 else s.core.endLine)
    = eL at hstep
  generalize he1 : (if eL < 1 then i1 else eL) = e1 at hstep
  generalize he2 : (if i1 = e1 then e1 - cbc else e1) = e2 at hstep
  generalize he3 : (if s.core.startLine + cbc = e2 then i1 - cbc else e2) = e3 at hstep
  split_ifs at hstep <;>
    simp only [Sum.inl.injEq, reduceCtorEq] at hstep <;>
    subst hstep <;>
    (try simp only [drawFinish]) <;>
    (try split_ifs) <;>
    refine ⟨by simp only [coreInv, incIK]; omega, ?_⟩ <;>
    first
      | exact coreFuel_lt_of_i_lt rfl rfl (by simp only [incIK]; omega) hlt
      | exact coreFuel_lt_of_to_draw rfl (by assumption) rfl
          (by simp only [incIK]; omega)
      | exact coreFuel_lt_of_startLine_lt (by simp only [incIK]; omega) (by omega)
          (by simp only [incIK]; omega)

/-- With fuel exceeding the measure, the measuring loop completes. -/
theorem measureLoop_isSome (c : MCtx) (hdec : ∀ l, 1 ≤ (c.dec l).2) :
    ∀ (fuel : Nat) (s : MState), coreInv s.core →
      coreFuel c.text.length s.core < fuel → (measureLoop c fuel s).isSome := by
  intro fuel
  induction fuel with
  | zero => intro s _ h; omega
  | succ f ih =>
    intro s hInv hf
    rw [measureLoop]
    split
    · have hd := measureStep_dec c hdec s hInv (by assumption)
      refine ih _ hd.1 ?_
      show coreFuel c.text.length (incIK (measureBody c s).core) < f
      omega
    · simp

/-- With fuel exceeding the measure, the drawing loop completes. -/
theorem drawLoop_isSome (c : DCtx) (hdec : ∀ l, 1 ≤ (c.dec l).2) :
    ∀ (fuel : Nat) (s : DState), coreInv s.core →
      coreFuel c.text.length s.core < fuel → (drawLoop c fuel s).isSome := by
  intro fuel
  induction fuel with
  | zero => intro s _ h; omega
  | succ f ih =>
    intro s hInv hf
    rw [drawLoop]
    split
    · rename_i hcond
      rcases hb : drawBody c s with s1 | s1
      · have hd := drawStep_dec c hdec s hInv hcond s1 hb
        simp only [hb]
        refine ih _ hd.1 ?_
        show coreFuel c.text.length (incIK s1.core) < f
        omega
      · simp [hb]
    · simp

/-- Larger fuel returns the same completed run of the measuring loop. -/
theorem measureLoop_mono (c : MCtx) :
    ∀ (f1 : Nat) (f2 : Nat) (s : MState) (r : MState), f1 ≤ f2 →
      measureLoop c f1 s = some r → measureLoop c f2 s = some r := by
  intro f1
  induction f1 with
  | zero => intro f2 s r _ h; simp [measureLoop] at h
  | succ f ih =>
    intro f2 s r hle h
    obtain ⟨f2p, rfl⟩ : ∃ k, f2 = k + 1 := ⟨f2 - 1, by omega⟩
    rw [measureLoop] at h ⊢
    by_cases hc : s.core.i < (c.text.length : Int)
    · rw [if_pos hc] at h ⊢
      exact ih f2p _ r (by omega) h
    · rw [if_neg hc] at h ⊢
      exact h

/-- Larger fuel returns the same completed run of the drawing loop. -/
theorem drawLoop_mono (c : DCtx) :
    ∀ (f1 : Nat) (f2 : Nat) (s : DState) (r : DState × Bool), f1 ≤ f2 →
      drawLoop c f1 s = some r → drawLoop c f2 s = some r := by
  intro f1
  induction f1 with
  | zero => intro f2 s r _ h; simp [drawLoop] at h
  | succ f ih =>
    intro f2 s r hle h
    obtain ⟨f2p, rfl⟩ : ∃ k, f2 = k + 1 := ⟨f2 - 1, by omega⟩
    by_cases hc : s.core.i < (c.text.length : Int)
    · rcases hb : drawBody c s with s1 | s1
      · rw [drawLoop, if_pos hc, hb] at h
        rw [drawLoop, if_pos hc, hb]
        exact ih f2p _ r (by omega) h
      · rw [drawLoop, if_pos hc, hb] at h
        rw [drawLoop, if_pos hc, hb]
        exact h
    · rw [drawLoop, if_neg hc] at h
      rw [drawLoop, if_neg hc]
      exact h

/-- The initial loop state satisfies the loop invariant. -/
theorem coreInit_inv (ww : Bool) : coreInv (coreInit ww) := by
  constructor <;> simp [coreInit]

/-- The fuel bound `textFuel` strictly exceeds the initial fuel measure. -/
theorem coreFuel_init_lt (L : Nat) (ww : Bool) :
    coreFuel L (coreInit ww) < textFuel L := by
  simp only [coreFuel, coreInit, textFuel]
  have hb : (if (!ww) = false then L + 1 else 0) ≤ L + 1 := by split <;> omega
  have h1 : ((L : Int) - -1).toNat = L + 1 := by omega
  have h2 : ((L : Int) - 0).toNat = L := by omega
  rw [h1, h2]
  nlinarith [hb]

/-- The single-byte witness decoder always reports byte count 1. -/
theorem asciiDec_count : ∀ l : List Nat, 1 ≤ (asciiDec l).2 := by
  intro l
  cases l with
  | nil => simp [asciiDec]
  | cons b t =>
    simp only [asciiDec]
    split <;> simp

/-- C9: for every input byte string (malformed sequences included) and every
decoder meeting raylib's contract that at least one byte is consumed per
decode, both scanning loops complete within the `textFuel` bound (so
`MeasureBoxedTextHeight` and `DrawTextBoxedSelectable` never stall or loop
forever); moreover each iteration consumes at least one effective byte from
its scan position, and a decode failure (fallback codepoint `0x3f`) is treated
as exactly one consumed byte. -/
theorem C9_scanning_loops_terminate (font : Font) (dec : List Nat → Int × Nat)
    (text : List Nat) (maxWidth fontSize spacing : ℚ) (wordWrap : Bool)
    (rec : Rect) (tint : Color) (selectStart selectLength : Int)
    (selectTint selectBackTint : Color)
    (hdec : ∀ l, 1 ≤ (dec l).2) :
    (measureLoop
        { font := font, text := text, maxWidth := maxWidth, fontSize := fontSize,
          spacing := spacing, wordWrap := wordWrap, dec := dec }
        (textFuel text.length)
        { core := coreInit wordWrap, maxOffsetY := 0 }).isSome ∧
    (drawLoop
        { font := font, text := text, rect := rec, fontSize := fontSize,
          spacing := spacing, wordWrap := wordWrap, tint := tint,
          selectLength := selectLength, selectTint := selectTint,
          selectBackTint := selectBackTint, dec := dec }
        (textFuel text.length)
        { core := coreInit wordWrap, selectStart := selectStart, draws := [] }).isSome ∧
    (∀ l, 1 ≤ effByteCount dec l) ∧
    (∀ l, (dec l).1 = 63 → effByteCount dec l = 1) := by
  refine ⟨?_, ?_, ?_, ?_⟩
  · exact measureLoop_isSome _ hdec _ _ (coreInit_inv wordWrap)
      (coreFuel_init_lt text.length wordWrap)
  · exact drawLoop_isSome _ hdec _ _ (coreInit_inv wordWrap)
      (coreFuel_init_lt text.length wordWrap)
  · intro l
    unfold effByteCount
    split
    · omega
    · have := hdec l
      omega
  · intro l h
    unfold effByteCount
    rw [if_pos h]

/-- C9 witness: concrete instantiation on a byte string starting with the
malformed byte `0xC8`, with the single-byte ASCII decoder. -/
theorem C9_scanning_loops_terminate_witness :
    (∀ l, 1 ≤ (asciiDec l).2) ∧
    ((measureLoop
        { font := testFont, text := [200, 97], maxWidth := 100, fontSize := 10,
          spacing := 0, wordWrap := true, dec := asciiDec }
        (textFuel 2) { core := coreInit true, maxOffsetY := 0 }).isSome ∧
     (drawLoop
        { font := testFont, text := [200, 97], rect := ⟨0, 0, 100, 100⟩,
          fontSize := 10, spacing := 0, wordWrap := true, tint := WHITE,
          selectLength := 0, selectTint := WHITE, selectBackTint := WHITE,
          dec := asciiDec }
        (textFuel 2)
        { core := coreInit true, selectStart := 0, draws := [] }).isSome ∧
     (∀ l, 1 ≤ effByteCount asciiDec l) ∧
     (∀ l, (asciiDec l).1 = 63 → effByteCount asciiDec l = 1)) :=
  ⟨asciiDec_count,
   C9_scanning_loops_terminate testFont asciiDec [200, 97] 100 10 0 true
     ⟨0, 0, 100, 100⟩ WHITE 0 0 WHITE WHITE asciiDec_count⟩

theorem maxGlyphExtent_append_rect (recY bs : ℚ) (l : List TCmd) (r : Rect) (col : Color) :
    maxGlyphExtent recY bs (l ++ [TCmd.rectangleRec r col]) = maxGlyphExtent recY bs l := by
  induction l with
  | nil => simp [maxGlyphExtent]
  | cons h t ih =>
    cases h <;> simp only [List.cons_append, List.append_eq, maxGlyphExtent, ih]

theorem maxGlyphExtent_append_glyph (recY bs : ℚ) (l : List TCmd)
    (cp : Int) (pos : V2) (fs : ℚ) (col : Color) :
    maxGlyphExtent recY bs (l ++ [TCmd.textCodepoint cp pos fs col]) =
      max (maxGlyphExtent recY bs l) (pos.y - recY + bs) := by
  induction l with
  | nil => simp [maxGlyphExtent, max_comm]
  | cons h t ih =>
    cases h <;> simp only [List.cons_append, List.append_eq, maxGlyphExtent, ih] <;>
      simp [max_assoc, max_comm, max_left_comm]

theorem eq_max_right {A B L : ℚ} (h : A ≤ B) (h2 : L = B) : L = max A B := by
  rw [max_eq_right h]
  exact h2

theorem drawStep_measuresDraw (c : DCtx) (d : DState) (m : MState)
    (hbs : 0 ≤ glyphHeight c.font (c.fontSize / (c.font.baseSize : ℚ)))
    (hla : 0 ≤ lineAdvance c.font (c.fontSize / (c.font.baseSize : ℚ)))
    (hR : measuresDraw c d m) (d1 : DState) (hstep : drawBody c d = .inl d1) :
    measuresDraw c d1 (measureBody (mctxOf c) m) := by
  obtain ⟨hcore, hmax, hbound, hY⟩ := hR
  obtain ⟨mc, mmax⟩ := m
  simp only at hcore hmax
  subst hcore
  unfold measuresDraw
  simp only [measureBody, drawBody, mctxOf] at hstep ⊢
  generalize hd : c.dec (c.text.drop d.core.i.toNat) = d0 at hstep ⊢
  generalize hcb : (if d0.1 = 63 then (1 : Int) else (d0.2 : Int)) = cbc at hstep ⊢
  generalize hgw : glyphWidthBase c.font (c.fontSize / (c.font.baseSize : ℚ)) d0.1
    = gwb at hstep ⊢
  generalize hi1 : d.core.i + (cbc - 1) = i1 at hstep ⊢
  generalize hgq : (if d0.1 = 10 then (0 : ℚ)
    else gwb + if i1 + 1 < (c.text.length : Int) then c.spacing else 0) = gwq at hstep ⊢
  generalize heL : (if d0.1 = 32 ∨ d0.1 = 9 ∨ d0.1 = 10 then i1 else d.core.endLine)
    = eL at hstep ⊢
  generalize he1 : (if eL < 1 then i1 else eL) = e1 at hstep ⊢
  generalize he2 : (if i1 = e1 then e1 - cbc else e1) = e2 at hstep ⊢
  generalize he3 : (if d.core.startLine + cbc = e2 then i1 - cbc else e2) = e3 at hstep ⊢
  split_ifs at hstep ⊢ <;>
    simp only [Sum.inl.injEq, reduceCtorEq] at hstep <;>
    subst hstep <;>
    (try simp only [measureFinish, drawFinish]) <;>
    (try split_ifs) <;>
    refine ⟨?_, ?_, ?_, ?_⟩ <;>
    first
      | rfl
      | trivial
      | exact hmax
      | exact hbound
      | linarith [hY, hla, hbs, hbound]
      | (simp only [maxGlyphExtent_append_glyph, maxGlyphExtent_append_rect]
         first
           | exact hmax
           | exact eq_max_right (by linarith [hbound, hla, hbs, hY]) (by ring)
           | exact max_le (by linarith [hbound, hla, hbs, hY])
               (by linarith [hbound, hla, hbs, hY])
           | linarith [hbound, hla, hbs, hY])

theorem measuresDraw_incIK (c : DCtx) (d : DState) (m : MState)
    (h : measuresDraw c d m) :
    measuresDraw c { d with core := incIK d.core } { m with core := incIK m.core } := by
  obtain ⟨hcore, hmax, hbound, hY⟩ := h
  exact ⟨congrArg incIK hcore, hmax, hbound, hY⟩

theorem drawLoop_measuresDraw (c : DCtx)
    (hbs : 0 ≤ glyphHeight c.font (c.fontSize / (c.font.baseSize : ℚ)))
    (hla : 0 ≤ lineAdvance c.font (c.fontSize / (c.font.baseSize : ℚ))) :
    ∀ (fuel : Nat) (d : DState) (m : MState), measuresDraw c d m →
      ∀ dr : DState, drawLoop c fuel d = some (dr, false) →
        ∃ mr : MState,
          measureLoop (mctxOf c) fuel m = some mr ∧ measuresDraw c dr mr := by
  intro fuel
  induction fuel with
  | zero => intro d m hR dr h; simp [drawLoop] at h
  | succ f ih =>
    intro d m hR dr h
    have hcore := hR.1
    by_cases hc : d.core.i < (c.text.length : Int)
    · have hcm : m.core.i < (((mctxOf c).text.length : Nat) : Int) := by
        simp only [mctxOf]
        rw [← hcore]
        exact hc
      rcases hb : drawBody c d with d1 | d1
      · rw [drawLoop, if_pos hc, hb] at h
        have hstep := drawStep_measuresDraw c d m hbs hla hR d1 hb
        have hstep2 := measuresDraw_incIK c _ _ hstep
        rw [measureLoop, if_pos hcm]
        exact ih _ _ hstep2 dr h
      · rw [drawLoop, if_pos hc, hb] at h
        simp at h
    · have hcm : ¬ m.core.i < (((mctxOf c).text.length : Nat) : Int) := by
        simp only [mctxOf]
        rw [← hcore]
        exact hc
      rw [drawLoop, if_neg hc] at h
      rw [measureLoop, if_neg hcm]
      simp only [Option.some.injEq, Prod.mk.injEq] at h
      obtain ⟨h1, -⟩ := h
      subst h1
      exact ⟨m, rfl, hR⟩

theorem drawTextBoxedRun_eq (font : Font) (dec : List Nat → Int × Nat)
    (text : List Nat) (rec : Rect) (fontSize spacing : ℚ) (wordWrap : Bool)
    (tint : Color) (selectStart selectLength : Int)
    (selectTint selectBackTint : Color) (r : DState × Bool)
    (h : drawLoop
      { font := font, text := text, rect := rec, fontSize := fontSize,
        spacing := spacing, wordWrap := wordWrap, tint := tint,
        selectLength := selectLength, selectTint := selectTint,
        selectBackTint := selectBackTint, dec := dec }
      (textFuel text.length)
      { core := coreInit wordWrap, selectStart := selectStart, draws := [] }
      = some r) :
    drawTextBoxedRun font dec text rec fontSize spacing wordWrap tint
      selectStart selectLength selectTint selectBackTint = r := by
  unfold drawTextBoxedRun
  rw [h]

theorem MeasureBoxedTextHeight_eq (font : Font) (dec : List Nat → Int × Nat)
    (text : List Nat) (maxWidth fontSize spacing : ℚ) (wordWrap : Bool)
    (mr : MState)
    (h : measureLoop
      { font := font, text := text, maxWidth := maxWidth, fontSize := fontSize,
        spacing := spacing, wordWrap := wordWrap, dec := dec }
      (textFuel text.length) { core := coreInit wordWrap, maxOffsetY := 0 }
      = some mr) :
    MeasureBoxedTextHeight font dec text maxWidth fontSize spacing wordWrap
      = mr.maxOffsetY := by
  unfold MeasureBoxedTextHeight
  rw [h]

theorem C6_measure_matches_draw (font : Font) (dec : List Nat → Int × Nat)
    (text : List Nat) (rec : Rect) (fontSize spacing : ℚ) (wordWrap : Bool)
    (tint : Color) (selectStart selectLength : Int)
    (selectTint selectBackTint : Color)
    (hdec : ∀ l, 1 ≤ (dec l).2) (hbase : 0 < font.baseSize) (hsize : 0 ≤ fontSize)
    (hnb : (drawTextBoxedRun font dec text rec fontSize spacing wordWrap tint
        selectStart selectLength selectTint selectBackTint).2 = false) :
    MeasureBoxedTextHeight font dec text rec.width fontSize spacing wordWrap =
      maxGlyphExtent rec.y (glyphHeight font (fontSize / (font.baseSize : ℚ)))
        (DrawTextBoxedSelectable font dec text rec fontSize spacing wordWrap tint
          selectStart selectLength selectTint selectBackTint) ∧
    (∀ (fuel : Nat) (dr : DState),
      drawLoop
        { font := font, text := text, rect := rec, fontSize := fontSize,
          spacing := spacing, wordWrap := wordWrap, tint := tint,
          selectLength := selectLength, selectTint := selectTint,
          selectBackTint := selectBackTint, dec := dec } fuel
        { core := coreInit wordWrap, selectStart := selectStart, draws := [] }
        = some (dr, false) →
      ∃ mr : MState,
        measureLoop
          { font := font, text := text, maxWidth := rec.width,
            fontSize := fontSize, spacing := spacing, wordWrap := wordWrap,
            dec := dec } fuel
          { core := coreInit wordWrap, maxOffsetY := 0 } = some mr ∧
        dr.core = mr.core) := by
  have hbq : (0 : ℚ) < (font.baseSize : ℚ) := by exact_mod_cast hbase
  have hbs : 0 ≤ glyphHeight font (fontSize / (font.baseSize : ℚ)) := by
    unfold glyphHeight
    exact mul_nonneg (le_of_lt hbq) (div_nonneg hsize (le_of_lt hbq))
  have hla : 0 ≤ lineAdvance font (fontSize / (font.baseSize : ℚ)) := by
    unfold lineAdvance
    have h1 : (0 : Int) ≤ font.baseSize + font.baseSize / 2 := by omega
    have h2 : (0 : ℚ) ≤ ((font.baseSize + font.baseSize / 2 : Int) : ℚ) := by
      exact_mod_cast h1
    exact mul_nonneg h2 (div_nonneg hsize (le_of_lt hbq))
  have hinit : measuresDraw
      { font := font, text := text, rect := rec, fontSize := fontSize,
        spacing := spacing, wordWrap := wordWrap, tint := tint,
        selectLength := selectLength, selectTint := selectTint,
        selectBackTint := selectBackTint, dec := dec }
      { core := coreInit wordWrap, selectStart := selectStart, draws := [] }
      { core := coreInit wordWrap, maxOffsetY := 0 } := by
    refine ⟨rfl, by simp [maxGlyphExtent], ?_, by simp [coreInit]⟩
    simp only [maxGlyphExtent, coreInit]
    linarith [hbs]
  constructor
  · obtain ⟨⟨dr, flag⟩, hdr⟩ : ∃ r, drawLoop
        { font := font, text := text, rect := rec, fontSize := fontSize,
          spacing := spacing, wordWrap := wordWrap, tint := tint,
          selectLength := selectLength, selectTint := selectTint,
          selectBackTint := selectBackTint, dec := dec }
        (textFuel text.length)
        { core := coreInit wordWrap, selectStart := selectStart, draws := [] }
        = some r :=
      Option.isSome_iff_exists.mp (drawLoop_isSome
        { font := font, text := text, rect := rec, fontSize := fontSize,
          spacing := spacing, wordWrap := wordWrap, tint := tint,
          selectLength := selectLength, selectTint := selectTint,
          selectBackTint := selectBackTint, dec := dec } hdec
        (textFuel text.length) _
        (coreInit_inv wordWrap) (coreFuel_init_lt text.length wordWrap))
    have hrun := drawTextBoxedRun_eq font dec text rec fontSize spacing wordWrap
      tint selectStart selectLength selectTint selectBackTint (dr, flag) hdr
    rw [hrun] at hnb
    have hflag : flag = false := hnb
    subst hflag
    obtain ⟨mr, hmr, hrel⟩ := drawLoop_measuresDraw
      { font := font, text := text, rect := rec, fontSize := fontSize,
        spacing := spacing, wordWrap := wordWrap, tint := tint,
        selectLength := selectLength, selectTint := selectTint,
        selectBackTint := selectBackTint, dec := dec } hbs hla
      (textFuel text.length) _ _ hinit dr hdr
    rw [MeasureBoxedTextHeight_eq font dec text rec.width fontSize spacing
      wordWrap mr hmr]
    simp only [DrawTextBoxedSelectable, hrun]
    exact hrel.2.1
  · intro fuel dr hdr
    obtain ⟨mr, hmr, hrel⟩ := drawLoop_measuresDraw
      { font := font, text := text, rect := rec, fontSize := fontSize,
        spacing := spacing, wordWrap := wordWrap, tint := tint,
        selectLength := selectLength, selectTint := selectTint,
        selectBackTint := selectBackTint, dec := dec } hbs hla
      fuel _ _ hinit dr hdr
    exact ⟨mr, hmr, hrel.1⟩

/-- C6 witness: the two-line wrap scenario in an effectively unbounded box —
the measured height equals the maximum glyph extent of the draw routine's
emitted glyphs. -/
theorem C6_measure_matches_draw_witness :
    ((∀ l, 1 ≤ (asciiDec l).2) ∧ 0 < testFont.baseSize ∧ (0 : ℚ) ≤ 10 ∧
     (drawTextBoxedRun testFont asciiDec [97, 97, 32, 98, 98] ⟨0, 0, 18, 1000⟩
        10 0 true WHITE 0 0 WHITE WHITE).2 = false) ∧
    MeasureBoxedTextHeight testFont asciiDec [97, 97, 32, 98, 98]
        (Rect.mk 0 0 18 1000).width 10 0 true =
      maxGlyphExtent (Rect.mk 0 0 18 1000).y
        (glyphHeight testFont (10 / (testFont.baseSize : ℚ)))
        (DrawTextBoxedSelectable testFont asciiDec [97, 97, 32, 98, 98]
          ⟨0, 0, 18, 1000⟩ 10 0 true WHITE 0 0 WHITE WHITE) :=
  ⟨⟨asciiDec_count, by decide, by norm_num, by with_unfolding_all rfl⟩,
   (C6_measure_matches_draw testFont asciiDec [97, 97, 32, 98, 98]
      ⟨0, 0, 18, 1000⟩ 10 0 true WHITE 0 0 WHITE WHITE
      asciiDec_count (by decide) (by norm_num) (by with_unfolding_all rfl)).1⟩

theorem c5_measure_step (c : DCtx) (hdec : c.dec = asciiDec) (hww : c.wordWrap = true)
    (p : Nat) (hp : p + 1 < c.text.length)
    (hb1 : 32 ≤ c.text.getD p 0) (hb2 : c.text.getD p 0 ≤ 126)
    (k0 sl eL lk : Int) (X Y : ℚ) (sel : Int) (dr : List TCmd)
    (hfit : X + charWidth c.font (c.fontSize / (c.font.baseSize : ℚ)) c.spacing
      c.text p ≤ c.rect.width)
    (fuel : Nat) :
    drawLoop c (fuel + 1)
      ⟨⟨(p : Int), k0, false, sl, eL, lk, X, Y⟩, sel, dr⟩ =
    drawLoop c fuel
      ⟨⟨((p + 1 : Nat) : Int), k0 + 1, false, sl,
        (if (c.text.getD p 0 : Int) = 32 ∨ (c.text.getD p 0 : Int) = 9 ∨
            (c.text.getD p 0 : Int) = 10 then (p : Int) else eL), lk,
        (if X ≠ 0 ∨ (c.text.getD p 0 : Int) ≠ 32
         then X + charWidth c.font (c.fontSize / (c.font.baseSize : ℚ)) c.spacing
           c.text p
         else X), Y⟩, sel, dr⟩ := by
  have hpL : ((p : Int)) < (c.text.length : Int) := by exact_mod_cast Nat.lt_of_succ_lt hp
  have hdrop : c.text.drop p = c.text.getD p 0 :: c.text.drop (p + 1) := by
    have hlt : p < c.text.length := Nat.lt_of_succ_lt hp
    rw [List.drop_eq_getElem_cons hlt]
    congr 1
    exact (List.getD_eq_getElem c.text 0 hlt).symm
  rw [drawLoop]
  rw [if_pos hpL]
  have hbody : drawBody c ⟨⟨(p : Int), k0, false, sl, eL, lk, X, Y⟩, sel, dr⟩ =
      .inl ⟨⟨(p : Int), k0, false, sl,
        (if (c.text.getD p 0 : Int) = 32 ∨ (c.text.getD p 0 : Int) = 9 ∨
            (c.text.getD p 0 : Int) = 10 then (p : Int) else eL), lk,
        (if X ≠ 0 ∨ (c.text.getD p 0 : Int) ≠ 32
         then X + charWidth c.font (c.fontSize / (c.font.baseSize : ℚ)) c.spacing
           c.text p
         else X), Y⟩, sel, dr⟩ := by
    simp only [drawBody, hdec, Int.toNat_natCast, hdrop, asciiDec]
    rw [if_pos (by omega : c.text.getD p 0 < 128)]
    have hc63 : (if ((c.text.getD p 0 : Nat) : Int) = 63 then (1 : Int)
        else ((1 : Nat) : Int)) = 1 := by
      split <;> simp
    simp only [hc63]
    have hi1 : (p : Int) + (1 - 1) = (p : Int) := by ring
    simp only [hi1]
    have h10 : ¬ ((c.text.getD p 0 : Nat) : Int) = 10 := by
      intro h
      have : c.text.getD p 0 = 10 := by exact_mod_cast h
      omega
    rw [if_neg h10]
    have hlen : ((p : Int) + 1 < (c.text.length : Int)) = True := by
      simp only [eq_iff_iff, iff_true]
      exact_mod_cast hp
    have hgw : (if (p : Int) + 1 < (c.text.length : Int)
          then c.spacing else 0) = c.spacing := by
      rw [if_pos (by exact_mod_cast hp)]
    rw [hgw]
    have hnotover : ¬ (X + (glyphWidthBase c.font (c.fontSize / (c.font.baseSize : ℚ))
        (c.text.getD p 0 : Int) + c.spacing) > c.rect.width) := by
      unfold charWidth at hfit
      rw [if_pos hp] at hfit
      linarith [hfit]
    rw [if_neg hnotover]
    have hnend : ¬ ((p : Int) + 1 = (c.text.length : Int)) := by
      intro h
      have : p + 1 = c.text.length := by exact_mod_cast h
      omega
    rw [if_neg hnend, if_neg h10]
    have hcw : glyphWidthBase c.font (c.fontSize / (c.font.baseSize : ℚ))
        (c.text.getD p 0 : Int) + c.spacing =
        charWidth c.font (c.fontSize / (c.font.baseSize : ℚ)) c.spacing c.text p := by
      unfold charWidth
      rw [if_pos hp]
    rw [hcw]
    rw [if_pos trivial]
  rw [hbody]
  simp only [incIK]
  norm_cast

theorem c5_measure_scan (c : DCtx) (hdec : c.dec = asciiDec) (hww : c.wordWrap = true)
    (n : Nat) : ∀ (j : Nat) (k0 sl eL lk : Int) (X Y : ℚ) (sel : Int) (dr : List TCmd)
    (fuel : Nat),
    (∀ m, m < n → j + m + 1 < c.text.length ∧ 32 ≤ c.text.getD (j + m) 0 ∧
      c.text.getD (j + m) 0 ≤ 126 ∧
      offXFrom c.font (c.fontSize / (c.font.baseSize : ℚ)) c.spacing c.text X j m +
        charWidth c.font (c.fontSize / (c.font.baseSize : ℚ)) c.spacing c.text (j + m)
        ≤ c.rect.width) →
    drawLoop c (fuel + n) ⟨⟨(j : Int), k0, false, sl, eL, lk, X, Y⟩, sel, dr⟩ =
    drawLoop c fuel ⟨⟨((j + n : Nat) : Int), k0 + n, false, sl,
      eLSeq c.text eL j n, lk,
      offXFrom c.font (c.fontSize / (c.font.baseSize : ℚ)) c.spacing c.text X j n, Y⟩,
      sel, dr⟩ := by
  induction n with
  | zero =>
    intro j k0 sl eL lk X Y sel dr fuel h
    simp [offXFrom, eLSeq]
  | succ n ih =>
    intro j k0 sl eL lk X Y sel dr fuel h
    have e1 : fuel + (n + 1) = (fuel + 1) + n := by omega
    rw [e1]
    rw [ih j k0 sl eL lk X Y sel dr (fuel + 1) (fun m hm => h m (by omega))]
    obtain ⟨ha, hb, hc2, hd⟩ := h n (by omega)
    have hstep := c5_measure_step c hdec hww (j + n) ha hb hc2
      (k0 + n) sl (eLSeq c.text eL j n) lk
      (offXFrom c.font (c.fontSize / (c.font.baseSize : ℚ)) c.spacing c.text X j n)
      Y sel dr hd fuel
    rw [hstep]
    have e2 : ((j + n + 1 : Nat) : Int) = ((j + (n + 1) : Nat) : Int) := by push_cast; ring
    have e3 : (k0 + (n : Int)) + 1 = k0 + ((n + 1 : Nat) : Int) := by push_cast; ring
    rw [e2, e3]
    simp only [offXFrom, eLSeq]

theorem c5_measure_end_step (c : DCtx) (hdec : c.dec = asciiDec)
    (hww : c.wordWrap = true)
    (p : Nat) (hp : p + 1 = c.text.length)
    (hb1 : 32 ≤ c.text.getD p 0) (hb2 : c.text.getD p 0 ≤ 126)
    (k0 sl eL lk : Int) (X Y : ℚ) (sel : Int) (dr : List TCmd)
    (hfit : X + charWidth c.font (c.fontSize / (c.font.baseSize : ℚ)) c.spacing
      c.text p ≤ c.rect.width)
    (fuel : Nat) :
    drawLoop c (fuel + 1)
      ⟨⟨(p : Int), k0, false, sl, eL, lk, X, Y⟩, sel, dr⟩ =
    drawLoop c fuel
      ⟨⟨sl + 1, lk + 1, true, sl, (p : Int), k0 - 1, 0, Y⟩, sel, dr⟩ := by
  have hplen : p < c.text.length := by omega
  have hpL : ((p : Int)) < (c.text.length : Int) := by exact_mod_cast hplen
  have hdrop : c.text.drop p = c.text.getD p 0 :: c.text.drop (p + 1) := by
    rw [List.drop_eq_getElem_cons hplen]
    congr 1
    exact (List.getD_eq_getElem c.text 0 hplen).symm
  rw [drawLoop]
  rw [if_pos hpL]
  have hbody : drawBody c ⟨⟨(p : Int), k0, false, sl, eL, lk, X, Y⟩, sel, dr⟩ =
      .inl ⟨⟨sl, lk, true, sl, (p : Int), k0 - 1, 0, Y⟩, sel, dr⟩ := by
    simp only [drawBody, hdec, Int.toNat_natCast, hdrop, asciiDec]
    rw [if_pos (by omega : c.text.getD p 0 < 128)]
    have hc63 : (if ((c.text.getD p 0 : Nat) : Int) = 63 then (1 : Int)
        else ((1 : Nat) : Int)) = 1 := by
      split <;> simp
    simp only [hc63]
    have hi1 : (p : Int) + (1 - 1) = (p : Int) := by ring
    simp only [hi1]
    have h10 : ¬ ((c.text.getD p 0 : Nat) : Int) = 10 := by
      intro h
      have : c.text.getD p 0 = 10 := by exact_mod_cast h
      omega
    rw [if_neg h10]
    have hgw : (if (p : Int) + 1 < (c.text.length : Int)
          then c.spacing else 0) = 0 := by
      rw [if_neg (by exact_mod_cast (by omega : ¬ p + 1 < c.text.length))]
    rw [hgw]
    have hnotover : ¬ (X + (glyphWidthBase c.font (c.fontSize / (c.font.baseSize : ℚ))
        (c.text.getD p 0 : Int) + 0) > c.rect.width) := by
      unfold charWidth at hfit
      rw [if_neg (by omega : ¬ p + 1 < c.text.length)] at hfit
      linarith [hfit]
    rw [if_neg hnotover]
    have hend : ((p : Int) + 1 = (c.text.length : Int)) := by exact_mod_cast hp
    rw [if_pos hend]
    rw [if_pos trivial]
  rw [hbody]
  simp only [incIK]

theorem c5_measure_overflow_step (c : DCtx) (hdec : c.dec = asciiDec)
    (hww : c.wordWrap = true)
    (p : Nat) (hp : p < c.text.length)
    (hb1 : 33 ≤ c.text.getD p 0) (hb2 : c.text.getD p 0 ≤ 126)
    (k0 sl eL lk : Int) (X Y : ℚ) (sel : Int) (dr : List TCmd)
    (hover : X + charWidth c.font (c.fontSize / (c.font.baseSize : ℚ)) c.spacing
      c.text p > c.rect.width)
    (heL1 : 1 ≤ eL) (hne : (p : Int) ≠ eL) (hsl : sl + 1 ≠ eL)
    (fuel : Nat) :
    drawLoop c (fuel + 1)
      ⟨⟨(p : Int), k0, false, sl, eL, lk, X, Y⟩, sel, dr⟩ =
    drawLoop c fuel
      ⟨⟨sl + 1, lk + 1, true, sl, eL, k0 - 1, 0, Y⟩, sel, dr⟩ := by
  have hpL : ((p : Int)) < (c.text.length : Int) := by exact_mod_cast hp
  have hdrop : c.text.drop p = c.text.getD p 0 :: c.text.drop (p + 1) := by
    rw [List.drop_eq_getElem_cons hp]
    congr 1
    exact (List.getD_eq_getElem c.text 0 hp).symm
  rw [drawLoop]
  rw [if_pos hpL]
  have hbody : drawBody c ⟨⟨(p : Int), k0, false, sl, eL, lk, X, Y⟩, sel, dr⟩ =
      .inl ⟨⟨sl, lk, true, sl, eL, k0 - 1, 0, Y⟩, sel, dr⟩ := by
    simp only [drawBody, hdec, Int.toNat_natCast, hdrop, asciiDec]
    rw [if_pos (by omega : c.text.getD p 0 < 128)]
    have hc63 : (if ((c.text.getD p 0 : Nat) : Int) = 63 then (1 : Int)
        else ((1 : Nat) : Int)) = 1 := by
      split <;> simp
    simp only [hc63]
    have hi1 : (p : Int) + (1 - 1) = (p : Int) := by ring
    simp only [hi1]
    have h10 : ¬ ((c.text.getD p 0 : Nat) : Int) = 10 := by
      intro h
      have : c.text.getD p 0 = 10 := by exact_mod_cast h
      omega
    rw [if_neg h10]
    have hbreakchar : ¬ ((c.text.getD p 0 : Int) = 32 ∨ (c.text.getD p 0 : Int) = 9 ∨
        (c.text.getD p 0 : Int) = 10) := by
      push_neg
      refine ⟨?_, ?_, ?_⟩ <;> intro h <;>
        (first
          | (have : c.text.getD p 0 = 32 := by exact_mod_cast h
             omega)
          | (have : c.text.getD p 0 = 9 := by exact_mod_cast h
             omega)
          | (have : c.text.getD p 0 = 10 := by exact_mod_cast h
             omega))
    rw [if_neg hbreakchar]
    have hoverv : X + (glyphWidthBase c.font (c.fontSize / (c.font.baseSize : ℚ))
        (c.text.getD p 0 : Int) +
        (if (p : Int) + 1 < (c.text.length : Int) then c.spacing else 0))
        > c.rect.width := by
      unfold charWidth at hover
      by_cases hlast : p + 1 < c.text.length
      · rw [if_pos hlast] at hover
        rw [if_pos (by exact_mod_cast hlast)]
        linarith [hover]
      · rw [if_neg hlast] at hover
        rw [if_neg (by exact_mod_cast hlast)]
        linarith [hover]
    rw [if_pos hoverv]
    rw [if_neg (by omega : ¬ eL < 1), if_neg hne, if_neg (by omega : ¬ sl + 1 = eL)]
    rw [if_pos trivial]
  rw [hbody]
  simp only [incIK]

theorem c5_draw_step (c : DCtx) (hdec : c.dec = asciiDec) (hsel : c.selectLength = 0)
    (p : Nat) (hp : p < c.text.length)
    (hb1 : 32 ≤ c.text.getD p 0) (hb2 : c.text.getD p 0 ≤ 126)
    (k0 sl eL lk : Int) (X Y : ℚ) (sel : Int) (dr : List TCmd)
    (hnsw : ¬ (c.wordWrap = true ∧ (p : Int) = eL))
    (hfit : X + charWidth c.font (c.fontSize / (c.font.baseSize : ℚ)) c.spacing
      c.text p ≤ c.rect.width)
    (hheight : Y + glyphHeight c.font (c.fontSize / (c.font.baseSize : ℚ))
      ≤ c.rect.height)
    (fuel : Nat) :
    drawLoop c (fuel + 1)
      ⟨⟨(p : Int), k0, true, sl, eL, lk, X, Y⟩, sel, dr⟩ =
    drawLoop c fuel
      ⟨⟨((p + 1 : Nat) : Int), k0 + 1, true, sl, eL, lk,
        (if X ≠ 0 ∨ (c.text.getD p 0 : Int) ≠ 32
         then X + charWidth c.font (c.fontSize / (c.font.baseSize : ℚ)) c.spacing
           c.text p
         else X), Y⟩, sel, dr ++ glyphCmd c p X Y⟩ := by
  have hpL : ((p : Int)) < (c.text.length : Int) := by exact_mod_cast hp
  have hdrop : c.text.drop p = c.text.getD p 0 :: c.text.drop (p + 1) := by
    rw [List.drop_eq_getElem_cons hp]
    congr 1
    exact (List.getD_eq_getElem c.text 0 hp).symm
  rw [drawLoop]
  rw [if_pos hpL]
  have hbody : drawBody c ⟨⟨(p : Int), k0, true, sl, eL, lk, X, Y⟩, sel, dr⟩ =
      .inl ⟨⟨(p : Int), k0, true, sl, eL, lk,
        (if X ≠ 0 ∨ (c.text.getD p 0 : Int) ≠ 32
         then X + charWidth c.font (c.fontSize / (c.font.baseSize : ℚ)) c.spacing
           c.text p
         else X), Y⟩, sel, dr ++ glyphCmd c p X Y⟩ := by
    simp only [drawBody, hdec, Int.toNat_natCast, hdrop, asciiDec]
    rw [if_pos (by omega : c.text.getD p 0 < 128)]
    have hc63 : (if ((c.text.getD p 0 : Nat) : Int) = 63 then (1 : Int)
        else ((1 : Nat) : Int)) = 1 := by
      split <;> simp
    simp only [hc63]
    have hi1 : (p : Int) + (1 - 1) = (p : Int) := by ring
    simp only [hi1]
    rw [if_neg (by simp : ¬ (true = false))]
    have h10 : ¬ ((c.text.getD p 0 : Nat) : Int) = 10 := by
      intro h
      have : c.text.getD p 0 = 10 := by exact_mod_cast h
      omega
    simp only [if_neg h10]
    have hcw : glyphWidthBase c.font (c.fontSize / (c.font.baseSize : ℚ))
        (c.text.getD p 0 : Int) +
        (if (p : Int) + 1 < (c.text.length : Int) then c.spacing else 0) =
        charWidth c.font (c.fontSize / (c.font.baseSize : ℚ)) c.spacing c.text p := by
      unfold charWidth
      by_cases hq : p + 1 < c.text.length
      · rw [if_pos (by exact_mod_cast hq : (p : Int) + 1 < (c.text.length : Int)),
          if_pos hq]
      · rw [if_neg (fun h => hq (by exact_mod_cast h)), if_neg hq]
    simp only [hcw]
    have hwf : ¬ (c.wordWrap = false ∧
        X + charWidth c.font (c.fontSize / (c.font.baseSize : ℚ)) c.spacing c.text p
          > c.rect.width) := by
      rintro ⟨-, h⟩
      linarith [hfit]
    simp only [if_neg hwf]
    rw [if_neg (not_lt.mpr hheight)]
    have hns : decide (0 ≤ sel ∧ sel ≤ k0 ∧ k0 < sel + c.selectLength) = false := by
      rw [hsel]
      exact decide_eq_false (by rintro ⟨h1, h2, h3⟩; omega)
    simp only [hns, Bool.false_eq_true, if_false]
    have hg : (if ¬((c.text.getD p 0 : Nat) : Int) = 32 ∧
          ¬((c.text.getD p 0 : Nat) : Int) = 9 then
        dr ++ [TCmd.textCodepoint ((c.text.getD p 0 : Nat) : Int)
          ⟨c.rect.x + X, c.rect.y + Y⟩ c.fontSize c.tint]
        else dr) = dr ++ glyphCmd c p X Y := by
      unfold glyphCmd
      split_ifs with h
      · rfl
      · simp
    rw [hg]
    simp only [drawFinish]
    rw [if_neg hnsw]
  rw [hbody]
  simp only [incIK]
  norm_cast

theorem c5_draw_scan (c : DCtx) (hdec : c.dec = asciiDec) (hsel : c.selectLength = 0)
    (n : Nat) : ∀ (j : Nat) (k0 sl eL lk : Int) (X Y : ℚ) (sel : Int) (dr : List TCmd)
    (fuel : Nat),
    (∀ m, m < n → j + m < c.text.length ∧ 32 ≤ c.text.getD (j + m) 0 ∧
      c.text.getD (j + m) 0 ≤ 126 ∧
      ¬ (c.wordWrap = true ∧ ((j + m : Nat) : Int) = eL) ∧
      offXFrom c.font (c.fontSize / (c.font.baseSize : ℚ)) c.spacing c.text X j m +
        charWidth c.font (c.fontSize / (c.font.baseSize : ℚ)) c.spacing c.text (j + m)
        ≤ c.rect.width) →
    Y + glyphHeight c.font (c.fontSize / (c.font.baseSize : ℚ)) ≤ c.rect.height →
    drawLoop c (fuel + n) ⟨⟨(j : Int), k0, true, sl, eL, lk, X, Y⟩, sel, dr⟩ =
    drawLoop c fuel ⟨⟨((j + n : Nat) : Int), k0 + n, true, sl, eL, lk,
      offXFrom c.font (c.fontSize / (c.font.baseSize : ℚ)) c.spacing c.text X j n, Y⟩,
      sel, dr ++ glyphCmds c X Y j n⟩ := by
  induction n with
  | zero =>
    intro j k0 sl eL lk X Y sel dr fuel h hY
    simp [offXFrom, glyphCmds]
  | succ n ih =>
    intro j k0 sl eL lk X Y sel dr fuel h hY
    have e1 : fuel + (n + 1) = (fuel + 1) + n := by omega
    rw [e1]
    rw [ih j k0 sl eL lk X Y sel dr (fuel + 1) (fun m hm => h m (by omega)) hY]
    obtain ⟨ha, hb, hc2, hd, he⟩ := h n (by omega)
    have hstep := c5_draw_step c hdec hsel (j + n) ha hb hc2
      (k0 + n) sl eL lk
      (offXFrom c.font (c.fontSize / (c.font.baseSize : ℚ)) c.spacing c.text X j n)
      Y sel (dr ++ glyphCmds c X Y j n) hd he hY fuel
    rw [hstep]
    have e2 : ((j + n + 1 : Nat) : Int) = ((j + (n + 1) : Nat) : Int) := by
      push_cast; ring
    have e3 : (k0 + (n : Int)) + 1 = k0 + ((n + 1 : Nat) : Int) := by push_cast; ring
    rw [e2, e3]
    simp only [offXFrom, glyphCmds, List.append_assoc]

theorem c5_draw_switch_step (c : DCtx) (hdec : c.dec = asciiDec)
    (hww : c.wordWrap = true) (hsel : c.selectLength = 0)
    (p : Nat) (hp : p < c.text.length)
    (hb1 : 32 ≤ c.text.getD p 0) (hb2 : c.text.getD p 0 ≤ 126)
    (k0 sl eL lk : Int) (X Y : ℚ) (sel : Int) (dr : List TCmd)
    (heq : (p : Int) = eL)
    (hheight : Y + glyphHeight c.font (c.fontSize / (c.font.baseSize : ℚ))
      ≤ c.rect.height)
    (fuel : Nat) :
    drawLoop c (fuel + 1)
      ⟨⟨(p : Int), k0, true, sl, eL, lk, X, Y⟩, sel, dr⟩ =
    drawLoop c fuel
      ⟨⟨(p : Int) + 1, lk + 1, false, eL, -1, lk, 0,
        Y + lineAdvance c.font (c.fontSize / (c.font.baseSize : ℚ))⟩,
        sel + (lk - k0), dr ++ glyphCmd c p X Y⟩ := by
  have hpL : ((p : Int)) < (c.text.length : Int) := by exact_mod_cast hp
  have hdrop : c.text.drop p = c.text.getD p 0 :: c.text.drop (p + 1) := by
    rw [List.drop_eq_getElem_cons hp]
    congr 1
    exact (List.getD_eq_getElem c.text 0 hp).symm
  rw [drawLoop]
  rw [if_pos hpL]
  have hbody : drawBody c ⟨⟨(p : Int), k0, true, sl, eL, lk, X, Y⟩, sel, dr⟩ =
      .inl ⟨⟨(p : Int), lk, false, eL, -1, lk, 0,
        Y + lineAdvance c.font (c.fontSize / (c.font.baseSize : ℚ))⟩,
        sel + (lk - k0), dr ++ glyphCmd c p X Y⟩ := by
    simp only [drawBody, hdec, Int.toNat_natCast, hdrop, asciiDec]
    rw [if_pos (by omega : c.text.getD p 0 < 128)]
    have hc63 : (if ((c.text.getD p 0 : Nat) : Int) = 63 then (1 : Int)
        else ((1 : Nat) : Int)) = 1 := by
      split <;> simp
    simp only [hc63]
    have hi1 : (p : Int) + (1 - 1) = (p : Int) := by ring
    simp only [hi1]
    rw [if_neg (by simp : ¬ (true = false))]
    have h10 : ¬ ((c.text.getD p 0 : Nat) : Int) = 10 := by
      intro h
      have : c.text.getD p 0 = 10 := by exact_mod_cast h
      omega
    simp only [if_neg h10]
    have hcw : glyphWidthBase c.font (c.fontSize / (c.font.baseSize : ℚ))
        (c.text.getD p 0 : Int) +
        (if (p : Int) + 1 < (c.text.length : Int) then c.spacing else 0) =
        charWidth c.font (c.fontSize / (c.font.baseSize : ℚ)) c.spacing c.text p := by
      unfold charWidth
      by_cases hq : p + 1 < c.text.length
      · rw [if_pos (by exact_mod_cast hq : (p : Int) + 1 < (c.text.length : Int)),
          if_pos hq]
      · rw [if_neg (fun h => hq (by exact_mod_cast h)), if_neg hq]
    simp only [hcw]
    have hwf : ¬ (c.wordWrap = false ∧
        X + charWidth c.font (c.fontSize / (c.font.baseSize : ℚ)) c.spacing c.text p
          > c.rect.width) := by
      rw [hww]
      simp
    simp only [if_neg hwf]
    rw [if_neg (not_lt.mpr hheight)]
    have hns : decide (0 ≤ sel ∧ sel ≤ k0 ∧ k0 < sel + c.selectLength) = false := by
      rw [hsel]
      exact decide_eq_false (by rintro ⟨h1, h2, h3⟩; omega)
    simp only [hns, Bool.false_eq_true, if_false]
    have hg : (if ¬((c.text.getD p 0 : Nat) : Int) = 32 ∧
          ¬((c.text.getD p 0 : Nat) : Int) = 9 then
        dr ++ [TCmd.textCodepoint ((c.text.getD p 0 : Nat) : Int)
          ⟨c.rect.x + X, c.rect.y + Y⟩ c.fontSize c.tint]
        else dr) = dr ++ glyphCmd c p X Y := by
      unfold glyphCmd
      split_ifs with h
      · rfl
      · simp
    rw [hg]
    simp only [drawFinish]
    rw [if_pos ⟨hww, heq⟩]
  rw [hbody]
  simp only [incIK]

theorem c5_exit (c : DCtx) (s : DState) (fuel : Nat)
    (h : ¬ s.core.i < (c.text.length : Int)) :
    drawLoop c (fuel + 1) s = some (s, false) := by
  rw [drawLoop, if_neg h]

theorem glyphCmds_nil (c : DCtx) (X0 Y : ℚ) (j : Nat) :
    ∀ n, (∀ m, m < n → (c.text.getD (j + m) 0 : Int) = 32 ∨
      (c.text.getD (j + m) 0 : Int) = 9) →
    glyphCmds c X0 Y j n = [] := by
  intro n
  induction n with
  | zero => intro h; rfl
  | succ n ih =>
    intro h
    simp only [glyphCmds]
    rw [ih (fun m hm => h m (by omega))]
    unfold glyphCmd
    rw [if_neg]
    · rfl
    · rintro ⟨h1, h2⟩
      rcases h n (by omega) with h3 | h3
      · exact h1 h3
      · exact h2 h3

theorem maxGlyphExtent_glyphCmds (c : DCtx) (bs X0 Y : ℚ) (j : Nat) :
    ∀ (n : Nat) (l : List TCmd),
    (∃ m, m < n ∧ ¬ ((c.text.getD (j + m) 0 : Int) = 32 ∨
      (c.text.getD (j + m) 0 : Int) = 9)) →
    maxGlyphExtent c.rect.y bs (l ++ glyphCmds c X0 Y j n) =
      max (maxGlyphExtent c.rect.y bs l) (Y + bs) := by
  intro n
  induction n with
  | zero =>
    rintro l ⟨m, hm, -⟩
    omega
  | succ n ih =>
    rintro l ⟨m, hm, hns⟩
    simp only [glyphCmds]
    by_cases hlast : (c.text.getD (j + n) 0 : Int) = 32 ∨ (c.text.getD (j + n) 0 : Int) = 9
    · have hg : glyphCmd c (j + n)
          (offXFrom c.font (c.fontSize / (c.font.baseSize : ℚ)) c.spacing c.text X0 j n)
          Y = [] := by
        unfold glyphCmd
        rw [if_neg]
        rintro ⟨h1, h2⟩
        rcases hlast with h3 | h3
        · exact h1 h3
        · exact h2 h3
      rw [hg, List.append_nil]
      have hm' : m < n := by
        rcases Nat.lt_succ_iff_lt_or_eq.mp hm with h | h
        · exact h
        · exact absurd hlast (h ▸ hns)
      exact ih l ⟨m, hm', hns⟩
    · push_neg at hlast
      have hg : glyphCmd c (j + n)
          (offXFrom c.font (c.fontSize / (c.font.baseSize : ℚ)) c.spacing c.text X0 j n)
          Y =
          [TCmd.textCodepoint (c.text.getD (j + n) 0 : Int)
            ⟨c.rect.x + offXFrom c.font (c.fontSize / (c.font.baseSize : ℚ)) c.spacing
              c.text X0 j n,
             c.rect.y + Y⟩ c.fontSize c.tint] := by
        unfold glyphCmd
        rw [if_pos hlast]
      rw [hg, ← List.append_assoc, maxGlyphExtent_append_glyph]
      have hy : c.rect.y + Y - c.rect.y + bs = Y + bs := by ring
      rw [hy]
      by_cases hall : ∀ r, r < n → ((c.text.getD (j + r) 0 : Int) = 32 ∨
          (c.text.getD (j + r) 0 : Int) = 9)
      · rw [glyphCmds_nil c X0 Y j n hall, List.append_nil]
      · push_neg at hall
        obtain ⟨r, hr, hrns⟩ := hall
        have hrns' : ¬ ((c.text.getD (j + r) 0 : Int) = 32 ∨
            (c.text.getD (j + r) 0 : Int) = 9) := by
          rintro (h3 | h3)
          · exact hrns.1 h3
          · exact hrns.2 h3
        rw [ih l ⟨r, hr, hrns'⟩]
        rw [max_assoc, max_self]

theorem c5_one_line (font : Font) (text : List Nat) (maxWidth fontSize spacing : ℚ)
    (ww : Bool)
    (hbase : 0 < font.baseSize) (hsize : 0 ≤ fontSize)
    (hne : text ≠ [])
    (hascii : ∀ b ∈ text, 32 ≤ b ∧ b ≤ 126)
    (hnonsp : ∃ b ∈ text, b ≠ 32 ∧ b ≠ 9)
    (hfit : ∀ m, m < text.length →
      offXFrom font (fontSize / (font.baseSize : ℚ)) spacing text 0 0 m +
        charWidth font (fontSize / (font.baseSize : ℚ)) spacing text m ≤ maxWidth) :
    MeasureBoxedTextHeight font asciiDec text maxWidth fontSize spacing ww =
      glyphHeight font (fontSize / (font.baseSize : ℚ)) := by
  have hbq : (0 : ℚ) < (font.baseSize : ℚ) := by exact_mod_cast hbase
  have hbs : 0 ≤ glyphHeight font (fontSize / (font.baseSize : ℚ)) := by
    unfold glyphHeight
    exact mul_nonneg (le_of_lt hbq) (div_nonneg hsize (le_of_lt hbq))
  have hla : 0 ≤ lineAdvance font (fontSize / (font.baseSize : ℚ)) := by
    unfold lineAdvance
    have h1 : (0 : Int) ≤ font.baseSize + font.baseSize / 2 := by omega
    have h2 : (0 : ℚ) ≤ ((font.baseSize + font.baseSize / 2 : Int) : ℚ) := by
      exact_mod_cast h1
    exact mul_nonneg h2 (div_nonneg hsize (le_of_lt hbq))
  obtain ⟨n, hlen⟩ : ∃ n, text.length = n + 1 :=
    ⟨text.length - 1, by have := List.length_pos.mpr hne; omega⟩
  have hB : ∀ m, m < text.length → 32 ≤ text.getD m 0 ∧ text.getD m 0 ≤ 126 := by
    intro m hm
    rw [List.getD_eq_getElem text 0 hm]
    exact hascii _ (List.getElem_mem hm)
  obtain ⟨b0, hb0mem, hb0a, hb0b⟩ := hnonsp
  obtain ⟨mi, hmi, hmieq⟩ := List.getElem_of_mem hb0mem
  have hex : ∃ m, m < text.length ∧
      ¬ ((text.getD m 0 : Int) = 32 ∨ (text.getD m 0 : Int) = 9) := by
    refine ⟨mi, hmi, ?_⟩
    rw [List.getD_eq_getElem text 0 hmi, hmieq]
    rintro (h | h)
    · exact hb0a (by exact_mod_cast h)
    · exact hb0b (by exact_mod_cast h)
  cases ww with
  | true =>
    set c : DCtx :=
      { font := font, text := text,
        rect := ⟨0, 0, maxWidth, glyphHeight font (fontSize / (font.baseSize : ℚ)) + 1⟩,
        fontSize := fontSize, spacing := spacing, wordWrap := true, tint := WHITE,
        selectLength := 0, selectTint := WHITE, selectBackTint := WHITE,
        dec := asciiDec } with hc
    have hclen : c.text.length = n + 1 := hlen
    have hcB : ∀ m, m < c.text.length →
        32 ≤ c.text.getD m 0 ∧ c.text.getD m 0 ≤ 126 := hB
    have hcfit : ∀ m, m < c.text.length →
        offXFrom c.font (c.fontSize / (c.font.baseSize : ℚ)) c.spacing c.text 0 0 m +
          charWidth c.font (c.fontSize / (c.font.baseSize : ℚ)) c.spacing c.text m
          ≤ c.rect.width := hfit
    have hcbs : 0 ≤ glyphHeight c.font (c.fontSize / (c.font.baseSize : ℚ)) := hbs
    have hcla : 0 ≤ lineAdvance c.font (c.fontSize / (c.font.baseSize : ℚ)) := hla
    have hcond1 : ∀ m, m < n → 0 + m + 1 < c.text.length ∧
        32 ≤ c.text.getD (0 + m) 0 ∧ c.text.getD (0 + m) 0 ≤ 126 ∧
        offXFrom c.font (c.fontSize / (c.font.baseSize : ℚ)) c.spacing c.text 0 0 m +
          charWidth c.font (c.fontSize / (c.font.baseSize : ℚ)) c.spacing c.text (0 + m)
          ≤ c.rect.width := by
      intro m hm
      simp only [Nat.zero_add]
      exact ⟨by omega, (hcB m (by omega)).1, (hcB m (by omega)).2, hcfit m (by omega)⟩
    have h1 := c5_measure_scan c rfl rfl n 0 0 (-1) (-1) (-1) 0 0 0 []
      (((1 + 1) + n) + 1) hcond1
    have hfitn : offXFrom c.font (c.fontSize / (c.font.baseSize : ℚ)) c.spacing
        c.text 0 0 n +
        charWidth c.font (c.fontSize / (c.font.baseSize : ℚ)) c.spacing c.text (0 + n)
        ≤ c.rect.width := by
      rw [Nat.zero_add]
      exact hcfit n (by omega)
    have h2 := c5_measure_end_step c rfl rfl (0 + n) (by omega)
      (hcB (0 + n) (by omega)).1 (hcB (0 + n) (by omega)).2
      (0 + (n : Int)) (-1) (eLSeq c.text (-1) 0 n) (-1)
      (offXFrom c.font (c.fontSize / (c.font.baseSize : ℚ)) c.spacing c.text 0 0 n) 0
      0 [] hfitn ((1 + 1) + n)
    have hcond3 : ∀ m, m < n → 0 + m < c.text.length ∧
        32 ≤ c.text.getD (0 + m) 0 ∧ c.text.getD (0 + m) 0 ≤ 126 ∧
        ¬ (c.wordWrap = true ∧ ((0 + m : Nat) : Int) = ((0 + n : Nat) : Int)) ∧
        offXFrom c.font (c.fontSize / (c.font.baseSize : ℚ)) c.spacing c.text 0 0 m +
          charWidth c.font (c.fontSize / (c.font.baseSize : ℚ)) c.spacing c.text (0 + m)
          ≤ c.rect.width := by
      intro m hm
      simp only [Nat.zero_add]
      refine ⟨by omega, (hcB m (by omega)).1, (hcB m (by omega)).2, ?_, hcfit m (by omega)⟩
      rintro ⟨-, h⟩
      have : m = n := by exact_mod_cast h
      omega
    have hY0 : (0 : ℚ) + glyphHeight c.font (c.fontSize / (c.font.baseSize : ℚ))
        ≤ c.rect.height := by
      show (0 : ℚ) + glyphHeight font (fontSize / (font.baseSize : ℚ))
        ≤ glyphHeight font (fontSize / (font.baseSize : ℚ)) + 1
      linarith
    have h3 := c5_draw_scan c rfl rfl n 0 0 (-1) ((0 + n : Nat) : Int)
      (0 + (n : Int) - 1) 0 0 0 [] (1 + 1) hcond3 hY0
    have h4 := c5_draw_switch_step c rfl rfl rfl (0 + n) (by omega)
      (hcB (0 + n) (by omega)).1 (hcB (0 + n) (by omega)).2
      (0 + (n : Int)) (-1) ((0 + n : Nat) : Int) (0 + (n : Int) - 1)
      (offXFrom c.font (c.fontSize / (c.font.baseSize : ℚ)) c.spacing c.text 0 0 n) 0
      0 ([] ++ glyphCmds c 0 0 0 n) rfl hY0 1
    have h5 : ∀ s : DState, ¬ s.core.i < (c.text.length : Int) →
        drawLoop c (0 + 1) s = some (s, false) := fun s h => c5_exit c s 0 h
    have hchain := (h1.trans (h2.trans (h3.trans h4))).trans (h5 _ (by
      show ¬ (((0 + n : Nat) : Int) + 1 < (c.text.length : Int))
      rw [hclen]
      push_cast
      omega))
    have hFle : ((((1 + 1) + n) + 1) + n) ≤ textFuel c.text.length := by
      rw [hclen]
      simp only [textFuel]
      have h2 : 2 * (n + 1 + 1) * (n + 1 + 2) = 2 * (n * n) + 10 * n + 12 := by ring
      omega
    have hfull := drawLoop_mono c _ (textFuel c.text.length) _ _ hFle hchain
    have hinit : measuresDraw c
        ⟨⟨((0 : Nat) : Int), 0, false, -1, -1, -1, 0, 0⟩, 0, []⟩
        { core := coreInit true, maxOffsetY := 0 } := by
      refine ⟨rfl, by simp [maxGlyphExtent], ?_, by norm_num⟩
      simp only [maxGlyphExtent]
      linarith [hcbs]
    obtain ⟨mr, hmr, hrel⟩ := drawLoop_measuresDraw c hcbs hcla
      (textFuel c.text.length) _ _ hinit _ hfull
    have hmeq : MeasureBoxedTextHeight font asciiDec text maxWidth fontSize spacing
        true = mr.maxOffsetY :=
      MeasureBoxedTextHeight_eq font asciiDec text maxWidth fontSize spacing true mr hmr
    rw [hmeq]
    obtain ⟨-, hmax, -, -⟩ := hrel
    rw [hmax]
    show maxGlyphExtent c.rect.y (glyphHeight c.font (c.fontSize / (c.font.baseSize : ℚ)))
      (([] ++ glyphCmds c 0 0 0 n) ++ glyphCmd c (0 + n)
        (offXFrom c.font (c.fontSize / (c.font.baseSize : ℚ)) c.spacing c.text 0 0 n) 0) =
      glyphHeight font (fontSize / (font.baseSize : ℚ))
    have hdr : (([] ++ glyphCmds c 0 0 0 n) ++ glyphCmd c (0 + n)
        (offXFrom c.font (c.fontSize / (c.font.baseSize : ℚ)) c.spacing c.text 0 0 n) 0)
        = glyphCmds c 0 0 0 (n + 1) := by
      simp only [glyphCmds, List.nil_append]
    rw [hdr]
    have hex' : ∃ m, m < n + 1 ∧
        ¬ ((c.text.getD (0 + m) 0 : Int) = 32 ∨ (c.text.getD (0 + m) 0 : Int) = 9) := by
      obtain ⟨m, hm, hns⟩ := hex
      refine ⟨m, by omega, ?_⟩
      simp only [Nat.zero_add]
      exact hns
    rw [← List.nil_append (glyphCmds c 0 0 0 (n + 1))]
    rw [maxGlyphExtent_glyphCmds c
      (glyphHeight c.font (c.fontSize / (c.font.baseSize : ℚ))) 0 0 0 (n + 1) [] hex']
    simp only [maxGlyphExtent, zero_add]
    exact max_eq_right hcbs
  | false =>
    set c : DCtx :=
      { font := font, text := text,
        rect := ⟨0, 0, maxWidth, glyphHeight font (fontSize / (font.baseSize : ℚ)) + 1⟩,
        fontSize := fontSize, spacing := spacing, wordWrap := false, tint := WHITE,
        selectLength := 0, selectTint := WHITE, selectBackTint := WHITE,
        dec := asciiDec } with hc
    have hclen : c.text.length = n + 1 := hlen
    have hcB : ∀ m, m < c.text.length →
        32 ≤ c.text.getD m 0 ∧ c.text.getD m 0 ≤ 126 := hB
    have hcfit : ∀ m, m < c.text.length →
        offXFrom c.font (c.fontSize / (c.font.baseSize : ℚ)) c.spacing c.text 0 0 m +
          charWidth c.font (c.fontSize / (c.font.baseSize : ℚ)) c.spacing c.text m
          ≤ c.rect.width := hfit
    have hcbs : 0 ≤ glyphHeight c.font (c.fontSize / (c.font.baseSize : ℚ)) := hbs
    have hcla : 0 ≤ lineAdvance c.font (c.fontSize / (c.font.baseSize : ℚ)) := hla
    have hcond1 : ∀ m, m < n + 1 → 0 + m < c.text.length ∧
        32 ≤ c.text.getD (0 + m) 0 ∧ c.text.getD (0 + m) 0 ≤ 126 ∧
        ¬ (c.wordWrap = true ∧ ((0 + m : Nat) : Int) = (-1 : Int)) ∧
        offXFrom c.font (c.fontSize / (c.font.baseSize : ℚ)) c.spacing c.text 0 0 m +
          charWidth c.font (c.fontSize / (c.font.baseSize : ℚ)) c.spacing c.text (0 + m)
          ≤ c.rect.width := by
      intro m hm
      simp only [Nat.zero_add]
      refine ⟨by omega, (hcB m (by omega)).1, (hcB m (by omega)).2, ?_,
        hcfit m (by omega)⟩
      rintro ⟨h1, -⟩
      exact absurd h1 (by decide)
    have hY0 : (0 : ℚ) + glyphHeight c.font (c.fontSize / (c.font.baseSize : ℚ))
        ≤ c.rect.height := by
      show (0 : ℚ) + glyphHeight font (fontSize / (font.baseSize : ℚ))
        ≤ glyphHeight font (fontSize / (font.baseSize : ℚ)) + 1
      linarith
    have h1 := c5_draw_scan c rfl rfl (n + 1) 0 0 (-1) (-1) (-1) 0 0 0 [] 1
      hcond1 hY0
    have h5 : ∀ s : DState, ¬ s.core.i < (c.text.length : Int) →
        drawLoop c (0 + 1) s = some (s, false) := fun s h => c5_exit c s 0 h
    have hchain := h1.trans (h5 _ (by
      show ¬ (((0 + (n + 1) : Nat) : Int) < (c.text.length : Int))
      rw [hclen]
      push_cast
      omega))
    have hFle : (1 + (n + 1)) ≤ textFuel c.text.length := by
      rw [hclen]
      simp only [textFuel]
      have h2 : 2 * (n + 1 + 1) * (n + 1 + 2) = 2 * (n * n) + 10 * n + 12 := by ring
      omega
    have hfull := drawLoop_mono c _ (textFuel c.text.length) _ _ hFle hchain
    have hinit : measuresDraw c
        ⟨⟨((0 : Nat) : Int), 0, true, -1, -1, -1, 0, 0⟩, 0, []⟩
        { core := coreInit false, maxOffsetY := 0 } := by
      refine ⟨rfl, by simp [maxGlyphExtent], ?_, by norm_num⟩
      simp only [maxGlyphExtent]
      linarith [hcbs]
    obtain ⟨mr, hmr, hrel⟩ := drawLoop_measuresDraw c hcbs hcla
      (textFuel c.text.length) _ _ hinit _ hfull
    have hmeq : MeasureBoxedTextHeight font asciiDec text maxWidth fontSize spacing
        false = mr.maxOffsetY :=
      MeasureBoxedTextHeight_eq font asciiDec text maxWidth fontSize spacing false mr hmr
    rw [hmeq]
    obtain ⟨-, hmax, -, -⟩ := hrel
    rw [hmax]
    show maxGlyphExtent c.rect.y (glyphHeight c.font (c.fontSize / (c.font.baseSize : ℚ)))
      ([] ++ glyphCmds c 0 0 0 (n + 1)) =
      glyphHeight font (fontSize / (font.baseSize : ℚ))
    have hex' : ∃ m, m < n + 1 ∧
        ¬ ((c.text.getD (0 + m) 0 : Int) = 32 ∨ (c.text.getD (0 + m) 0 : Int) = 9) := by
      obtain ⟨m, hm, hns⟩ := hex
      refine ⟨m, by omega, ?_⟩
      simp only [Nat.zero_add]
      exact hns
    rw [maxGlyphExtent_glyphCmds c
      (glyphHeight c.font (c.fontSize / (c.font.baseSize : ℚ))) 0 0 0 (n + 1) [] hex']
    simp only [maxGlyphExtent, zero_add]
    exact max_eq_right hcbs

theorem c5_two_line (font : Font) (w1 w2 : List Nat) (maxWidth fontSize spacing : ℚ)
    (hbase : 0 < font.baseSize) (hsize : 0 ≤ fontSize)
    (hw1 : w1 ≠ []) (hw2 : w2 ≠ [])
    (hA1 : ∀ b ∈ w1, 33 ≤ b ∧ b ≤ 126)
    (hA2 : ∀ b ∈ w2, 33 ≤ b ∧ b ≤ 126)
    (hfit1 : ∀ m, m ≤ w1.length →
      offXFrom font (fontSize / (font.baseSize : ℚ)) spacing (w1 ++ 32 :: w2) 0 0 m +
        charWidth font (fontSize / (font.baseSize : ℚ)) spacing (w1 ++ 32 :: w2) m ≤ maxWidth)
    (hover : maxWidth <
      offXFrom font (fontSize / (font.baseSize : ℚ)) spacing (w1 ++ 32 :: w2) 0 0 (w1.length + 1) +
        charWidth font (fontSize / (font.baseSize : ℚ)) spacing (w1 ++ 32 :: w2) (w1.length + 1))
    (hfit2 : ∀ r, r < w2.length →
      offXFrom font (fontSize / (font.baseSize : ℚ)) spacing (w1 ++ 32 :: w2) 0 (w1.length + 1) r +
        charWidth font (fontSize / (font.baseSize : ℚ)) spacing (w1 ++ 32 :: w2) (w1.length + 1 + r) ≤ maxWidth) :
    MeasureBoxedTextHeight font asciiDec (w1 ++ 32 :: w2) maxWidth fontSize spacing true =
      lineAdvance font (fontSize / (font.baseSize : ℚ)) + glyphHeight font (fontSize / (font.baseSize : ℚ)) ∧
    DrawTextBoxedSelectable font asciiDec (w1 ++ 32 :: w2)
        ⟨0, 0, maxWidth, lineAdvance font (fontSize / (font.baseSize : ℚ)) + glyphHeight font (fontSize / (font.baseSize : ℚ)) + 1⟩
        fontSize spacing true WHITE 0 0 WHITE WHITE =
      glyphCmds
        { font := font, text := w1 ++ 32 :: w2, rect := ⟨0, 0, maxWidth, lineAdvance font (fontSize / (font.baseSize : ℚ)) + glyphHeight font (fontSize / (font.baseSize : ℚ)) + 1⟩, fontSize := fontSize, spacing := spacing, wordWrap := true, tint := WHITE, selectLength := 0, selectTint := WHITE, selectBackTint := WHITE, dec := asciiDec } 0 0 0 w1.length ++
      glyphCmds
        { font := font, text := w1 ++ 32 :: w2, rect := ⟨0, 0, maxWidth, lineAdvance font (fontSize / (font.baseSize : ℚ)) + glyphHeight font (fontSize / (font.baseSize : ℚ)) + 1⟩, fontSize := fontSize, spacing := spacing, wordWrap := true, tint := WHITE, selectLength := 0, selectTint := WHITE, selectBackTint := WHITE, dec := asciiDec } 0 (lineAdvance font (fontSize / (font.baseSize : ℚ))) (w1.length + 1) w2.length := by
  have hbq : (0 : ℚ) < (font.baseSize : ℚ) := by exact_mod_cast hbase
  have hbs : 0 ≤ glyphHeight font (fontSize / (font.baseSize : ℚ)) := by
    unfold glyphHeight
    exact mul_nonneg (le_of_lt hbq) (div_nonneg hsize (le_of_lt hbq))
  have hla : 0 ≤ lineAdvance font (fontSize / (font.baseSize : ℚ)) := by
    unfold lineAdvance
    have h1 : (0 : Int) ≤ font.baseSize + font.baseSize / 2 := by omega
    have h2 : (0 : ℚ) ≤ ((font.baseSize + font.baseSize / 2 : Int) : ℚ) := by
      exact_mod_cast h1
    exact mul_nonneg h2 (div_nonneg hsize (le_of_lt hbq))
  have hL1 : 0 < w1.length := List.length_pos.mpr hw1
  obtain ⟨m2, hm2⟩ : ∃ k, w2.length = k + 1 :=
    ⟨w2.length - 1, by have := List.length_pos.mpr hw2; omega⟩
  set c : DCtx :=
    { font := font, text := w1 ++ 32 :: w2, rect := ⟨0, 0, maxWidth, lineAdvance font (fontSize / (font.baseSize : ℚ)) + glyphHeight font (fontSize / (font.baseSize : ℚ)) + 1⟩, fontSize := fontSize, spacing := spacing, wordWrap := true, tint := WHITE, selectLength := 0, selectTint := WHITE, selectBackTint := WHITE, dec := asciiDec } with hc
  have hclen : c.text.length = w1.length + 1 + w2.length := by
    show (w1 ++ 32 :: w2).length = w1.length + 1 + w2.length
    simp only [List.length_append, List.length_cons]
    omega
  have hgetD_w1 : ∀ m, m < w1.length → c.text.getD m 0 = w1.getD m 0 := by
    intro m hm
    show (w1 ++ 32 :: w2).getD m 0 = w1.getD m 0
    rw [List.getD_append]
    exact hm
  have hgetD_space : c.text.getD (0 + w1.length) 0 = 32 := by
    show (w1 ++ 32 :: w2).getD (0 + w1.length) 0 = 32
    rw [Nat.zero_add, List.getD_append_right, Nat.sub_self]
    · rfl
    · exact le_refl _
  have hgetD_w2 : ∀ r, c.text.getD (w1.length + 1 + r) 0 = w2.getD r 0 := by
    intro r
    show (w1 ++ 32 :: w2).getD (w1.length + 1 + r) 0 = w2.getD r 0
    rw [List.getD_append_right]
    · have e : w1.length + 1 + r - w1.length = r + 1 := by omega
      rw [e, List.getD_cons_succ]
    · omega
  have hBw1 : ∀ m, m < w1.length →
      33 ≤ c.text.getD m 0 ∧ c.text.getD m 0 ≤ 126 := by
    intro m hm
    rw [hgetD_w1 m hm, List.getD_eq_getElem w1 0 hm]
    exact hA1 _ (List.getElem_mem hm)
  have hBw2 : ∀ r, r < w2.length →
      33 ≤ c.text.getD (w1.length + 1 + r) 0 ∧ c.text.getD (w1.length + 1 + r) 0 ≤ 126 := by
    intro r hr
    rw [hgetD_w2 r, List.getD_eq_getElem w2 0 hr]
    exact hA2 _ (List.getElem_mem hr)
  have hlen2 : (w1 ++ 32 :: w2).length = w1.length + 1 + w2.length := hclen
  have htspace : (w1 ++ 32 :: w2).getD w1.length 0 = 32 := by
    have h0 := hgetD_space
    rwa [Nat.zero_add] at h0
  have htB1 : ∀ m, m < w1.length →
      33 ≤ (w1 ++ 32 :: w2).getD m 0 ∧ (w1 ++ 32 :: w2).getD m 0 ≤ 126 := hBw1
  have htB2 : ∀ r, r < w2.length →
      33 ≤ (w1 ++ 32 :: w2).getD (w1.length + 1 + r) 0 ∧
        (w1 ++ 32 :: w2).getD (w1.length + 1 + r) 0 ≤ 126 := hBw2
  have hcbs : 0 ≤ glyphHeight c.font (c.fontSize / (c.font.baseSize : ℚ)) := hbs
  have hcla : 0 ≤ lineAdvance c.font (c.fontSize / (c.font.baseSize : ℚ)) := hla
  have hcfit1 : ∀ m, m ≤ w1.length →
      offXFrom c.font (c.fontSize / (c.font.baseSize : ℚ)) c.spacing c.text 0 0 (m) + charWidth c.font (c.fontSize / (c.font.baseSize : ℚ)) c.spacing c.text m ≤ c.rect.width := hfit1
  have hcfit2 : ∀ r, r < w2.length →
      offXFrom c.font (c.fontSize / (c.font.baseSize : ℚ)) c.spacing c.text 0 (w1.length + 1) r +
        charWidth c.font (c.fontSize / (c.font.baseSize : ℚ)) c.spacing c.text (w1.length + 1 + r) ≤ c.rect.width := hfit2
  have heval : eLSeq c.text (-1) 0 (w1.length + 1) = ((0 + w1.length : Nat) : Int) := by
    have hcond : (c.text.getD (0 + w1.length) 0 : Int) = 32 ∨
        (c.text.getD (0 + w1.length) 0 : Int) = 9 ∨
        (c.text.getD (0 + w1.length) 0 : Int) = 10 := by
      left
      rw [hgetD_space]
      norm_num
    simp only [eLSeq, if_pos hcond]
  have hY1 : (0 : ℚ) + glyphHeight c.font (c.fontSize / (c.font.baseSize : ℚ)) ≤ c.rect.height := by
    show (0 : ℚ) + glyphHeight font (fontSize / (font.baseSize : ℚ)) ≤ lineAdvance font (fontSize / (font.baseSize : ℚ)) + glyphHeight font (fontSize / (font.baseSize : ℚ)) + 1
    linarith
  have hY2 : ((0 : ℚ) + lineAdvance c.font (c.fontSize / (c.font.baseSize : ℚ))) + glyphHeight c.font (c.fontSize / (c.font.baseSize : ℚ)) ≤ c.rect.height := by
    show ((0 : ℚ) + lineAdvance font (fontSize / (font.baseSize : ℚ))) + glyphHeight font (fontSize / (font.baseSize : ℚ)) ≤ lineAdvance font (fontSize / (font.baseSize : ℚ)) + glyphHeight font (fontSize / (font.baseSize : ℚ)) + 1
    linarith
  have hcond1 : ∀ m, m < w1.length + 1 → 0 + m + 1 < c.text.length ∧
      32 ≤ c.text.getD (0 + m) 0 ∧ c.text.getD (0 + m) 0 ≤ 126 ∧
      offXFrom c.font (c.fontSize / (c.font.baseSize : ℚ)) c.spacing c.text 0 0 (m) + charWidth c.font (c.fontSize / (c.font.baseSize : ℚ)) c.spacing c.text (0 + m) ≤ c.rect.width := by
    intro m hm
    simp only [Nat.zero_add]
    refine ⟨by omega, ?_, ?_, hcfit1 m (by omega)⟩
    · rcases Nat.lt_succ_iff_lt_or_eq.mp hm with h | h
      · have := (htB1 m h).1
        omega
      · subst h
        have h2 := htspace
        omega
    · rcases Nat.lt_succ_iff_lt_or_eq.mp hm with h | h
      · have := (htB1 m h).2
        omega
      · subst h
        have h2 := htspace
        omega
  have h1 := c5_measure_scan c rfl rfl (w1.length + 1) 0 0 (-1) (-1) (-1) 0 0 0 []
    ((((((((0 + 1) + 1) + m2) + 1) + m2) + 1) + w1.length) + 1) hcond1
  rw [heval] at h1
  have hb2ov : 33 ≤ c.text.getD (0 + (w1.length + 1)) 0 ∧
      c.text.getD (0 + (w1.length + 1)) 0 ≤ 126 := by
    rw [Nat.zero_add]
    have h0 := hBw2 0 (by omega)
    rwa [Nat.add_zero] at h0
  have hover' : offXFrom c.font (c.fontSize / (c.font.baseSize : ℚ)) c.spacing c.text 0 0 (w1.length + 1) +
      charWidth c.font (c.fontSize / (c.font.baseSize : ℚ)) c.spacing c.text (0 + (w1.length + 1)) > c.rect.width := by
    rw [Nat.zero_add]
    exact hover
  have h2 := c5_measure_overflow_step c rfl rfl (0 + (w1.length + 1)) (by omega)
    hb2ov.1 hb2ov.2
    (0 + ((w1.length + 1 : Nat) : Int)) (-1) ((0 + w1.length : Nat) : Int) (-1)
    (offXFrom c.font (c.fontSize / (c.font.baseSize : ℚ)) c.spacing c.text 0 0 (w1.length + 1)) 0 0 [] hover'
    (by push_cast; omega)
    (by intro h; rw [Nat.zero_add] at h; push_cast at h; omega)
    (by intro h; push_cast at h; omega)
    (((((((0 + 1) + 1) + m2) + 1) + m2) + 1) + w1.length)
  have hcond3 : ∀ m, m < w1.length → 0 + m < c.text.length ∧
      32 ≤ c.text.getD (0 + m) 0 ∧ c.text.getD (0 + m) 0 ≤ 126 ∧
      ¬ (c.wordWrap = true ∧ ((0 + m : Nat) : Int) = ((0 + w1.length : Nat) : Int)) ∧
      offXFrom c.font (c.fontSize / (c.font.baseSize : ℚ)) c.spacing c.text 0 0 (m) + charWidth c.font (c.fontSize / (c.font.baseSize : ℚ)) c.spacing c.text (0 + m) ≤ c.rect.width := by
    intro m hm
    simp only [Nat.zero_add]
    refine ⟨by omega, by have := (htB1 m hm).1; omega,
      by have := (htB1 m hm).2; omega, ?_, hcfit1 m (by omega)⟩
    rintro ⟨-, h⟩
    have : m = w1.length := by exact_mod_cast h
    omega
  have h3 := c5_draw_scan c rfl rfl w1.length 0 0 (-1) ((0 + w1.length : Nat) : Int) ((0 + ((w1.length + 1 : Nat) : Int)) - 1) 0 0 0 []
    ((((((0 + 1) + 1) + m2) + 1) + m2) + 1) hcond3 hY1
  have hb1sp : 32 ≤ c.text.getD (0 + w1.length) 0 ∧ c.text.getD (0 + w1.length) 0 ≤ 126 := by
    rw [hgetD_space]
    omega
  have h4 := c5_draw_switch_step c rfl rfl rfl (0 + w1.length) (by omega)
    hb1sp.1 hb1sp.2
    (0 + (w1.length : Int)) (-1) ((0 + w1.length : Nat) : Int) ((0 + ((w1.length + 1 : Nat) : Int)) - 1)
    (offXFrom c.font (c.fontSize / (c.font.baseSize : ℚ)) c.spacing c.text 0 0 (w1.length)) 0 0 ([] ++ glyphCmds c 0 0 0 w1.length) rfl hY1 (((((0 + 1) + 1) + m2) + 1) + m2)
  have hcond5 : ∀ m, m < m2 → 0 + w1.length + 1 + m + 1 < c.text.length ∧
      32 ≤ c.text.getD (0 + w1.length + 1 + m) 0 ∧
      c.text.getD (0 + w1.length + 1 + m) 0 ≤ 126 ∧
      offXFrom c.font (c.fontSize / (c.font.baseSize : ℚ)) c.spacing c.text 0 (0 + w1.length + 1) m +
        charWidth c.font (c.fontSize / (c.font.baseSize : ℚ)) c.spacing c.text (0 + w1.length + 1 + m) ≤ c.rect.width := by
    intro m hm
    simp only [Nat.zero_add]
    refine ⟨by omega, by have := (htB2 m (by omega)).1; omega,
      by have := (htB2 m (by omega)).2; omega, hcfit2 m (by omega)⟩
  have h5 := c5_measure_scan c rfl rfl m2 (0 + w1.length + 1)
    (((0 + ((w1.length + 1 : Nat) : Int)) - 1) + 1) ((0 + w1.length : Nat) : Int) (-1) ((0 + ((w1.length + 1 : Nat) : Int)) - 1) 0 (0 + lineAdvance c.font (c.fontSize / (c.font.baseSize : ℚ))) (0 + (((0 + ((w1.length + 1 : Nat) : Int)) - 1) - (0 + (w1.length : Int))))
    (([] ++ glyphCmds c 0 0 0 w1.length) ++ glyphCmd c (0 + w1.length) (offXFrom c.font (c.fontSize / (c.font.baseSize : ℚ)) c.spacing c.text 0 0 (w1.length)) 0) ((((0 + 1) + 1) + m2) + 1) hcond5
  have hb2end : 32 ≤ c.text.getD (0 + w1.length + 1 + m2) 0 ∧ c.text.getD (0 + w1.length + 1 + m2) 0 ≤ 126 := by
    have h0 := hBw2 m2 (by omega)
    rw [Nat.zero_add]
    omega
  have hfitend : offXFrom c.font (c.fontSize / (c.font.baseSize : ℚ)) c.spacing c.text 0 (0 + w1.length + 1) (m2) + charWidth c.font (c.fontSize / (c.font.baseSize : ℚ)) c.spacing c.text (0 + w1.length + 1 + m2)
      ≤ c.rect.width := by
    simp only [Nat.zero_add]
    exact hcfit2 m2 (by omega)
  have h6 := c5_measure_end_step c rfl rfl (0 + w1.length + 1 + m2) (by omega)
    hb2end.1 hb2end.2
    ((((0 + ((w1.length + 1 : Nat) : Int)) - 1) + 1) + (m2 : Int)) ((0 + w1.length : Nat) : Int) (eLSeq c.text (-1) (0 + w1.length + 1) m2) ((0 + ((w1.length + 1 : Nat) : Int)) - 1)
    (offXFrom c.font (c.fontSize / (c.font.baseSize : ℚ)) c.spacing c.text 0 (0 + w1.length + 1) (m2)) (0 + lineAdvance c.font (c.fontSize / (c.font.baseSize : ℚ))) (0 + (((0 + ((w1.length + 1 : Nat) : Int)) - 1) - (0 + (w1.length : Int)))) (([] ++ glyphCmds c 0 0 0 w1.length) ++ glyphCmd c (0 + w1.length) (offXFrom c.font (c.fontSize / (c.font.baseSize : ℚ)) c.spacing c.text 0 0 (w1.length)) 0) hfitend (((0 + 1) + 1) + m2)
  have hcond7 : ∀ m, m < m2 → 0 + w1.length + 1 + m < c.text.length ∧
      32 ≤ c.text.getD (0 + w1.length + 1 + m) 0 ∧
      c.text.getD (0 + w1.length + 1 + m) 0 ≤ 126 ∧
      ¬ (c.wordWrap = true ∧ ((0 + w1.length + 1 + m : Nat) : Int) = (((0 + w1.length + 1 + m2) : Nat) : Int)) ∧
      offXFrom c.font (c.fontSize / (c.font.baseSize : ℚ)) c.spacing c.text 0 (0 + w1.length + 1) m +
        charWidth c.font (c.fontSize / (c.font.baseSize : ℚ)) c.spacing c.text (0 + w1.length + 1 + m) ≤ c.rect.width := by
    intro m hm
    simp only [Nat.zero_add]
    refine ⟨by omega, by have := (htB2 m (by omega)).1; omega,
      by have := (htB2 m (by omega)).2; omega, ?_, hcfit2 m (by omega)⟩
    rintro ⟨-, h⟩
    have : w1.length + 1 + m = w1.length + 1 + m2 := by exact_mod_cast h
    omega
  have h7 := c5_draw_scan c rfl rfl m2 (0 + w1.length + 1)
    (((0 + ((w1.length + 1 : Nat) : Int)) - 1) + 1) ((0 + w1.length : Nat) : Int) (((0 + w1.length + 1 + m2) : Nat) : Int) (((((0 + ((w1.length + 1 : Nat) : Int)) - 1) + 1) + (m2 : Int)) - 1) 0 (0 + lineAdvance c.font (c.fontSize / (c.font.baseSize : ℚ))) (0 + (((0 + ((w1.length + 1 : Nat) : Int)) - 1) - (0 + (w1.length : Int))))
    (([] ++ glyphCmds c 0 0 0 w1.length) ++ glyphCmd c (0 + w1.length) (offXFrom c.font (c.fontSize / (c.font.baseSize : ℚ)) c.spacing c.text 0 0 (w1.length)) 0) ((0 + 1) + 1) hcond7 hY2
  have h8 := c5_draw_switch_step c rfl rfl rfl (0 + w1.length + 1 + m2) (by omega)
    hb2end.1 hb2end.2
    ((((0 + ((w1.length + 1 : Nat) : Int)) - 1) + 1) + (m2 : Int)) ((0 + w1.length : Nat) : Int) (((0 + w1.length + 1 + m2) : Nat) : Int) (((((0 + ((w1.length + 1 : Nat) : Int)) - 1) + 1) + (m2 : Int)) - 1)
    (offXFrom c.font (c.fontSize / (c.font.baseSize : ℚ)) c.spacing c.text 0 (0 + w1.length + 1) (m2)) (0 + lineAdvance c.font (c.fontSize / (c.font.baseSize : ℚ))) (0 + (((0 + ((w1.length + 1 : Nat) : Int)) - 1) - (0 + (w1.length : Int))))
    ((([] ++ glyphCmds c 0 0 0 w1.length) ++ glyphCmd c (0 + w1.length) (offXFrom c.font (c.fontSize / (c.font.baseSize : ℚ)) c.spacing c.text 0 0 (w1.length)) 0) ++ glyphCmds c 0 (0 + lineAdvance c.font (c.fontSize / (c.font.baseSize : ℚ))) (0 + w1.length + 1) m2) rfl hY2 (0 + 1)
  have h9 : ∀ s : DState, ¬ s.core.i < (c.text.length : Int) →
      drawLoop c (0 + 1) s = some (s, false) := fun s h => c5_exit c s 0 h
  have hchain := (h1.trans (h2.trans (h3.trans (h4.trans (h5.trans (h6.trans
    (h7.trans h8))))))).trans (h9 _ (by
      show ¬ ((((0 + w1.length + 1 + m2) : Nat) : Int) + 1 < (c.text.length : Int))
      rw [hclen]
      push_cast
      omega))
  have hFle : (((((((((0 + 1) + 1) + m2) + 1) + m2) + 1) + w1.length) + 1) + (w1.length + 1)) ≤ textFuel c.text.length := by
    rw [hclen, hm2]
    simp only [textFuel]
    have hq : 2 * (w1.length + 1 + (m2 + 1) + 1) * (w1.length + 1 + (m2 + 1) + 2) =
        2 * (w1.length * w1.length) + 4 * (w1.length * m2) + 2 * (m2 * m2) +
        14 * w1.length + 14 * m2 + 24 := by ring
    omega
  have hfull := drawLoop_mono c _ (textFuel c.text.length) _ _ hFle hchain
  have hinit : measuresDraw c
      ⟨⟨((0 : Nat) : Int), 0, false, -1, -1, -1, 0, 0⟩, 0, []⟩
      { core := coreInit true, maxOffsetY := 0 } := by
    refine ⟨rfl, by simp [maxGlyphExtent], ?_, by norm_num⟩
    simp only [maxGlyphExtent]
    linarith [hcbs]
  obtain ⟨mr, hmr, hrel⟩ := drawLoop_measuresDraw c hcbs hcla
    (textFuel c.text.length) _ _ hinit _ hfull
  have hrun := drawTextBoxedRun_eq font asciiDec (w1 ++ 32 :: w2)
    ⟨0, 0, maxWidth, lineAdvance font (fontSize / (font.baseSize : ℚ)) + glyphHeight font (fontSize / (font.baseSize : ℚ)) + 1⟩
    fontSize spacing true WHITE 0 0 WHITE WHITE _ hfull
  have hspace_nil : glyphCmd c (0 + w1.length) (offXFrom c.font (c.fontSize / (c.font.baseSize : ℚ)) c.spacing c.text 0 0 (w1.length)) 0 = [] := by
    unfold glyphCmd
    rw [if_neg]
    rintro ⟨hq1, -⟩
    apply hq1
    rw [hgetD_space]
    norm_num
  constructor
  · have hmeq : MeasureBoxedTextHeight font asciiDec (w1 ++ 32 :: w2) maxWidth fontSize
        spacing true = mr.maxOffsetY :=
      MeasureBoxedTextHeight_eq font asciiDec (w1 ++ 32 :: w2) maxWidth fontSize
        spacing true mr hmr
    rw [hmeq]
    obtain ⟨-, hmax, -, -⟩ := hrel
    rw [hmax]
    show maxGlyphExtent c.rect.y (glyphHeight c.font (c.fontSize / (c.font.baseSize : ℚ)))
      ((((([] ++ glyphCmds c 0 0 0 w1.length) ++ glyphCmd c (0 + w1.length) (offXFrom c.font (c.fontSize / (c.font.baseSize : ℚ)) c.spacing c.text 0 0 (w1.length)) 0) ++ glyphCmds c 0 (0 + lineAdvance c.font (c.fontSize / (c.font.baseSize : ℚ))) (0 + w1.length + 1) m2) ++
        glyphCmd c (0 + w1.length + 1 + m2) (offXFrom c.font (c.fontSize / (c.font.baseSize : ℚ)) c.spacing c.text 0 (0 + w1.length + 1) (m2)) (0 + lineAdvance c.font (c.fontSize / (c.font.baseSize : ℚ))))) = lineAdvance font (fontSize / (font.baseSize : ℚ)) + glyphHeight font (fontSize / (font.baseSize : ℚ))
    have hdf : (((([] ++ glyphCmds c 0 0 0 w1.length) ++ glyphCmd c (0 + w1.length) (offXFrom c.font (c.fontSize / (c.font.baseSize : ℚ)) c.spacing c.text 0 0 (w1.length)) 0) ++ glyphCmds c 0 (0 + lineAdvance c.font (c.fontSize / (c.font.baseSize : ℚ))) (0 + w1.length + 1) m2) ++
        glyphCmd c (0 + w1.length + 1 + m2) (offXFrom c.font (c.fontSize / (c.font.baseSize : ℚ)) c.spacing c.text 0 (0 + w1.length + 1) (m2)) (0 + lineAdvance c.font (c.fontSize / (c.font.baseSize : ℚ)))) =
        glyphCmds c 0 0 0 w1.length ++ glyphCmds c 0 (0 + lineAdvance c.font (c.fontSize / (c.font.baseSize : ℚ))) (0 + w1.length + 1) (m2 + 1) := by
      rw [hspace_nil]
      simp only [glyphCmds, List.nil_append, List.append_nil, List.append_assoc]
    rw [hdf]
    have hex2 : ∃ m, m < m2 + 1 ∧
        ¬ ((c.text.getD (0 + w1.length + 1 + m) 0 : Int) = 32 ∨
           (c.text.getD (0 + w1.length + 1 + m) 0 : Int) = 9) := by
      refine ⟨0, by omega, ?_⟩
      have h0 := hBw2 0 (by omega)
      rw [Nat.add_zero] at h0
      simp only [Nat.zero_add, Nat.add_zero]
      rintro (h | h)
      · have : w2.getD 0 0 = 32 := by
          rw [← hgetD_w2 0, Nat.add_zero]
          exact_mod_cast h
        rw [← hgetD_w2 0, Nat.add_zero] at this
        omega
      · have : c.text.getD (w1.length + 1) 0 = 9 := by
          have h2 := hgetD_w2 0
          rw [Nat.add_zero] at h2
          exact_mod_cast h
        omega
    rw [maxGlyphExtent_glyphCmds c (glyphHeight c.font (c.fontSize / (c.font.baseSize : ℚ))) 0 (0 + lineAdvance c.font (c.fontSize / (c.font.baseSize : ℚ))) (0 + w1.length + 1) (m2 + 1)
      (glyphCmds c 0 0 0 w1.length) hex2]
    have hex1 : ∃ m, m < w1.length ∧
        ¬ ((c.text.getD (0 + m) 0 : Int) = 32 ∨ (c.text.getD (0 + m) 0 : Int) = 9) := by
      refine ⟨0, by omega, ?_⟩
      have h0 := hBw1 0 (by omega)
      simp only [Nat.zero_add]
      rintro (h | h)
      · have : c.text.getD 0 0 = 32 := by exact_mod_cast h
        omega
      · have : c.text.getD 0 0 = 9 := by exact_mod_cast h
        omega
    rw [← List.nil_append (glyphCmds c 0 0 0 w1.length)]
    rw [maxGlyphExtent_glyphCmds c (glyphHeight c.font (c.fontSize / (c.font.baseSize : ℚ))) 0 0 0 w1.length [] hex1]
    simp only [maxGlyphExtent, zero_add]
    rw [max_eq_right hcbs]
    rw [max_eq_right (le_add_of_nonneg_left hcla)]
  · rw [hm2]
    simp only [DrawTextBoxedSelectable, hrun]
    show (((([] ++ glyphCmds c 0 0 0 w1.length) ++ glyphCmd c (0 + w1.length) (offXFrom c.font (c.fontSize / (c.font.baseSize : ℚ)) c.spacing c.text 0 0 (w1.length)) 0) ++ glyphCmds c 0 (0 + lineAdvance c.font (c.fontSize / (c.font.baseSize : ℚ))) (0 + w1.length + 1) m2) ++
        glyphCmd c (0 + w1.length + 1 + m2) (offXFrom c.font (c.fontSize / (c.font.baseSize : ℚ)) c.spacing c.text 0 (0 + w1.length + 1) (m2)) (0 + lineAdvance c.font (c.fontSize / (c.font.baseSize : ℚ)))) =
      glyphCmds c 0 0 0 w1.length ++ glyphCmds c 0 (lineAdvance font (fontSize / (font.baseSize : ℚ))) (w1.length + 1) (m2 + 1)
    rw [hspace_nil]
    simp only [glyphCmds, List.nil_append, List.append_nil, List.append_assoc,
      Nat.zero_add, zero_add]

/-- C5: corrected. The claim fixes the line height at `1.5 × baseSize × scale`;
the source instead returns `baseSize * scaleFactor` for a one-line string (the
maximum glyph extent, seeded at offset 0) and
`(baseSize + baseSize/2) * scaleFactor + baseSize * scaleFactor` for a two-line
wrap. The corrected statement: a newline-free ASCII string whose every prefix
fits in `maxWidth` measures exactly one glyph height `baseSize * scaleFactor`
(word wrap on or off), and a `word SPACE word` string that fits up to the
space but overflows at the first character after it measures exactly
`lineAdvance + glyphHeight`, with the wrap placed at the space: the draw
routine emits precisely the first word's glyphs on line 0 and the second
word's glyphs on the next line, never splitting a word. -/
theorem C5_measure_line_heights :
    (∀ (font : Font) (text : List Nat) (maxWidth fontSize spacing : ℚ) (ww : Bool),
      0 < font.baseSize → 0 ≤ fontSize → text ≠ [] →
      (∀ b ∈ text, 32 ≤ b ∧ b ≤ 126) →
      (∃ b ∈ text, b ≠ 32 ∧ b ≠ 9) →
      (∀ m, m < text.length →
        offXFrom font (fontSize / (font.baseSize : ℚ)) spacing text 0 0 m +
          charWidth font (fontSize / (font.baseSize : ℚ)) spacing text m ≤ maxWidth) →
      MeasureBoxedTextHeight font asciiDec text maxWidth fontSize spacing ww =
        glyphHeight font (fontSize / (font.baseSize : ℚ))) ∧
    (∀ (font : Font) (w1 w2 : List Nat) (maxWidth fontSize spacing : ℚ),
      0 < font.baseSize → 0 ≤ fontSize → w1 ≠ [] → w2 ≠ [] →
      (∀ b ∈ w1, 33 ≤ b ∧ b ≤ 126) →
      (∀ b ∈ w2, 33 ≤ b ∧ b ≤ 126) →
      (∀ m, m ≤ w1.length →
        offXFrom font (fontSize / (font.baseSize : ℚ)) spacing (w1 ++ 32 :: w2) 0 0 m +
          charWidth font (fontSize / (font.baseSize : ℚ)) spacing (w1 ++ 32 :: w2) m
          ≤ maxWidth) →
      (maxWidth <
        offXFrom font (fontSize / (font.baseSize : ℚ)) spacing (w1 ++ 32 :: w2) 0 0
          (w1.length + 1) +
          charWidth font (fontSize / (font.baseSize : ℚ)) spacing (w1 ++ 32 :: w2)
            (w1.length + 1)) →
      (∀ r, r < w2.length →
        offXFrom font (fontSize / (font.baseSize : ℚ)) spacing (w1 ++ 32 :: w2) 0
          (w1.length + 1) r +
          charWidth font (fontSize / (font.baseSize : ℚ)) spacing (w1 ++ 32 :: w2)
            (w1.length + 1 + r) ≤ maxWidth) →
      MeasureBoxedTextHeight font asciiDec (w1 ++ 32 :: w2) maxWidth fontSize spacing
          true =
        lineAdvance font (fontSize / (font.baseSize : ℚ)) +
          glyphHeight font (fontSize / (font.baseSize : ℚ)) ∧
      DrawTextBoxedSelectable font asciiDec (w1 ++ 32 :: w2)
          ⟨0, 0, maxWidth, lineAdvance font (fontSize / (font.baseSize : ℚ)) + glyphHeight font (fontSize / (font.baseSize : ℚ)) + 1⟩
          fontSize spacing true WHITE 0 0 WHITE WHITE =
        glyphCmds { font := font, text := w1 ++ 32 :: w2, rect := ⟨0, 0, maxWidth, lineAdvance font (fontSize / (font.baseSize : ℚ)) + glyphHeight font (fontSize / (font.baseSize : ℚ)) + 1⟩, fontSize := fontSize, spacing := spacing, wordWrap := true, tint := WHITE, selectLength := 0, selectTint := WHITE, selectBackTint := WHITE, dec := asciiDec } 0 0 0 w1.length ++
        glyphCmds { font := font, text := w1 ++ 32 :: w2, rect := ⟨0, 0, maxWidth, lineAdvance font (fontSize / (font.baseSize : ℚ)) + glyphHeight font (fontSize / (font.baseSize : ℚ)) + 1⟩, fontSize := fontSize, spacing := spacing, wordWrap := true, tint := WHITE, selectLength := 0, selectTint := WHITE, selectBackTint := WHITE, dec := asciiDec } 0 (lineAdvance font (fontSize / (font.baseSize : ℚ))) (w1.length + 1) w2.length) :=
  ⟨fun font text maxWidth fontSize spacing ww h1 h2 h3 h4 h5 h6 =>
     c5_one_line font text maxWidth fontSize spacing ww h1 h2 h3 h4 h5 h6,
   fun font w1 w2 maxWidth fontSize spacing h1 h2 h3 h4 h5 h6 h7 h8 h9 =>
     c5_two_line font w1 w2 maxWidth fontSize spacing h1 h2 h3 h4 h5 h6 h7 h8 h9⟩

/-- C5 witness: with the base-size-10, advance-5 test font at scale 1, the
two-letter string `hi` in a wide box measures 10 (one glyph height), and the
string `h i` in a 12-wide box wraps at the space and measures 15 + 10 = 25. -/
theorem C5_measure_line_heights_witness :
    MeasureBoxedTextHeight testFont asciiDec [104, 105] 100 10 1 true =
      glyphHeight testFont (10 / (testFont.baseSize : ℚ)) ∧
    MeasureBoxedTextHeight testFont asciiDec ([104] ++ 32 :: [105]) 12 10 0 true =
      lineAdvance testFont (10 / (testFont.baseSize : ℚ)) +
        glyphHeight testFont (10 / (testFont.baseSize : ℚ)) :=
  ⟨C5_measure_line_heights.1 testFont [104, 105] 100 10 1 true (by decide)
      (by norm_num) (by decide) (by decide) (by decide)
      (by with_unfolding_all decide),
   (C5_measure_line_heights.2 testFont [104] [105] 12 10 0 (by decide)
      (by norm_num) (by decide) (by decide) (by decide) (by decide)
      (by with_unfolding_all decide) (by with_unfolding_all decide)
      (by with_unfolding_all decide)).1⟩

/-- C5 counterexample: the claim's fixed line height `1.5 × base glyph size,
scaled` is 15 for the test font at scale 1, but the measured height of a
fitting newline-free string is 10 (`baseSize * scaleFactor`), not 15. -/
theorem C5_counterexample :
    MeasureBoxedTextHeight testFont asciiDec [104, 105] 100 10 1 true = 10 ∧
    (3 : ℚ) / 2 * ((testFont.baseSize : ℚ) * (10 / (testFont.baseSize : ℚ))) = 15 ∧
    (10 : ℚ) ≠ 15 := by
  refine ⟨by with_unfolding_all rfl, ?_, by norm_num⟩
  show (3 : ℚ) / 2 * (((10 : Int) : ℚ) * (10 / ((10 : Int) : ℚ))) = 15
  norm_num

theorem Scene.length_set (s : Scene) (i : Nat) (d : NodeData) :
    (s.set i d).nodes.length = s.nodes.length := by
  simp [Scene.set]

theorem Scene.get_set_self (s : Scene) (i : Nat) (d : NodeData)
    (h : i < s.nodes.length) : (s.set i d).get i = d := by
  simp [Scene.get, Scene.set, List.getD_eq_getElem?_getD, List.getElem?_set_self, h]

theorem Scene.get_set_ne (s : Scene) (i j : Nat) (d : NodeData)
    (h : i ≠ j) : (s.set i d).get j = s.get j := by
  simp [Scene.get, Scene.set, List.getD_eq_getElem?_getD, List.getElem?_set_ne, h]

theorem Scene.set_out (s : Scene) (i : Nat) (d : NodeData)
    (h : s.nodes.length ≤ i) : s.set i d = s := by
  simp [Scene.set, List.set_eq_of_length_le h]

theorem Scene.get_out (s : Scene) (i : Nat) (h : s.nodes.length ≤ i) :
    s.get i = NodeData.base .plain := by
  simp [Scene.get, List.getD_eq_getElem?_getD, List.getElem?_eq_none, h]

theorem Scene.get_set_parent (s : Scene) (i j : Nat) (d : NodeData)
    (hd : d.parent = (s.get i).parent) :
    ((s.set i d).get j).parent = ((s.get j)).parent := by
  by_cases hij : i = j
  · subst hij
    by_cases hl : i < s.nodes.length
    · rw [Scene.get_set_self s i d hl, hd]
    · rw [Scene.set_out s i d (by omega)]
  · rw [Scene.get_set_ne s i j d hij]

theorem clearFold_parent_pres (l : List Nat) :
    ∀ (s : Scene) (c : Nat), (s.get c).parent = none →
    ((l.foldl (fun st x => st.set x { st.get x with parent := none }) s).get c).parent
      = none := by
  induction l with
  | nil => intro s c h; exact h
  | cons a t ih =>
    intro s c h
    simp only [List.foldl_cons]
    refine ih _ c ?_
    show ((s.set a { s.get a with parent := none }).get c).parent = none
    by_cases hac : a = c
    · subst hac
      by_cases hl : a < s.nodes.length
      · rw [Scene.get_set_self s a _ hl]
      · rw [Scene.set_out s a _ (by omega)]
        exact h
    · rw [Scene.get_set_ne s a c _ hac]
      exact h

theorem clearFold_parent_none (l : List Nat) :
    ∀ (s : Scene) (c : Nat), c ∈ l →
    ((l.foldl (fun st x => st.set x { st.get x with parent := none }) s).get c).parent
      = none := by
  induction l with
  | nil => intro s c h; cases h
  | cons a t ih =>
    intro s c h
    rcases List.mem_cons.mp h with h1 | h1
    · subst h1
      simp only [List.foldl_cons]
      refine clearFold_parent_pres t _ c ?_
      show ((s.set c { s.get c with parent := none }).get c).parent = none
      by_cases hl : c < s.nodes.length
      · rw [Scene.get_set_self s c _ hl]
      · rw [Scene.set_out s c _ (by omega), Scene.get_out s c (by omega)]
        rfl
    · simp only [List.foldl_cons]
      exact ih _ c h1

theorem clearFold_length (l : List Nat) :
    ∀ (s : Scene),
    (l.foldl (fun st x => st.set x { st.get x with parent := none }) s).nodes.length
      = s.nodes.length := by
  induction l with
  | nil => intro s; rfl
  | cons a t ih =>
    intro s
    simp only [List.foldl_cons]
    rw [ih]
    show (s.set a { s.get a with parent := none }).nodes.length = s.nodes.length
    rw [Scene.length_set]

/-- C4: corrected. `remove_child` deletes the child from the list but never
touches the child's parent back-reference (the source erases without a
`parent.reset()`); only `clear_children` clears back-references, and it does
so before clearing the list. -/
theorem C4_detach_backrefs :
    (∀ (s : Scene) (p c : Nat),
      c ∉ ((Node.remove_child s p c).get p).children ∧
      ((Node.remove_child s p c).get c).parent = (s.get c).parent) ∧
    (∀ (s : Scene) (p c : Nat), c ∈ (s.get p).children →
      ((Node.clear_children s p).get c).parent = none) ∧
    (∀ (s : Scene) (p : Nat), p < s.nodes.length →
      ((Node.clear_children s p).get p).children = []) := by
  refine ⟨?_, ?_, ?_⟩
  · intro s p c
    constructor
    · by_cases hl : p < s.nodes.length
      · rw [Node.remove_child, Scene.get_set_self s p _ hl]
        intro hmem
        have := List.of_mem_filter hmem
        simp at this
      · rw [Node.remove_child, Scene.set_out s p _ (by omega),
          Scene.get_out s p (by omega)]
        simp [NodeData.base]
    · exact Scene.get_set_parent s p c _ rfl
  · intro s p c hmem
    simp only [Node.clear_children]
    have h1 := clearFold_parent_none (s.get p).children s c hmem
    by_cases hpc : p = c
    · subst hpc
      by_cases hl : p < s.nodes.length
      · rw [Scene.get_set_self _ p _ (by rw [clearFold_length]; exact hl)]
        exact h1
      · rw [Scene.set_out _ p _ (by rw [clearFold_length]; omega)]
        exact h1
    · rw [Scene.get_set_ne _ p c _ hpc]
      exact h1
  · intro s p hl
    simp only [Node.clear_children]
    rw [Scene.get_set_self _ p _ (by rw [clearFold_length]; exact hl)]

/-- C4 witness: a parent with one child probed through both operations. -/
theorem C4_detach_backrefs_witness :
    (1 ∉ ((Node.remove_child
        ⟨[{ NodeData.base .plain with children := [1] },
          { NodeData.base .plain with parent := some 0 }]⟩ 0 1).get 0).children ∧
      ((Node.remove_child
        ⟨[{ NodeData.base .plain with children := [1] },
          { NodeData.base .plain with parent := some 0 }]⟩ 0 1).get 1).parent =
        ((⟨[{ NodeData.base .plain with children := [1] },
          { NodeData.base .plain with parent := some 0 }]⟩ : Scene).get 1).parent) ∧
    ((Node.clear_children
        ⟨[{ NodeData.base .plain with children := [1] },
          { NodeData.base .plain with parent := some 0 }]⟩ 0).get 1).parent = none ∧
    ((Node.clear_children
        ⟨[{ NodeData.base .plain with children := [1] },
          { NodeData.base .plain with parent := some 0 }]⟩ 0).get 0).children = [] :=
  ⟨C4_detach_backrefs.1
      ⟨[{ NodeData.base .plain with children := [1] },
        { NodeData.base .plain with parent := some 0 }]⟩ 0 1,
   C4_detach_backrefs.2.1
      ⟨[{ NodeData.base .plain with children := [1] },
        { NodeData.base .plain with parent := some 0 }]⟩ 0 1 (by decide),
   C4_detach_backrefs.2.2
      ⟨[{ NodeData.base .plain with children := [1] },
        { NodeData.base .plain with parent := some 0 }]⟩ 0 (by decide)⟩

/-- C4 counterexample: after `remove_child` the detached child's parent
back-reference still points at the old parent — it is not cleared, contrary
to the claim. -/
theorem C4_counterexample :
    ((Node.remove_child
        ⟨[{ NodeData.base .plain with children := [1] },
          { NodeData.base .plain with parent := some 0 }]⟩ 0 1).get 1).parent = some 0 ∧
    (some 0 : Option Nat) ≠ none ∧
    1 ∉ ((Node.remove_child
        ⟨[{ NodeData.base .plain with children := [1] },
          { NodeData.base .plain with parent := some 0 }]⟩ 0 1).get 0).children := by
  refine ⟨by decide, by decide, by decide⟩

theorem bbFold_mono (s : Scene) (l : List Nat) :
    ∀ acc : ℚ × ℚ × ℚ × ℚ,
    (l.foldl (bbStep s) acc).1 ≤ acc.1 ∧
    (l.foldl (bbStep s) acc).2.1 ≤ acc.2.1 ∧
    acc.2.2.1 ≤ (l.foldl (bbStep s) acc).2.2.1 ∧
    acc.2.2.2 ≤ (l.foldl (bbStep s) acc).2.2.2 := by
  induction l with
  | nil => intro acc; exact ⟨le_refl _, le_refl _, le_refl _, le_refl _⟩
  | cons a t ih =>
    intro acc
    have hstep : (bbStep s acc a).1 ≤ acc.1 ∧ (bbStep s acc a).2.1 ≤ acc.2.1 ∧
        acc.2.2.1 ≤ (bbStep s acc a).2.2.1 ∧ acc.2.2.2 ≤ (bbStep s acc a).2.2.2 := by
      unfold bbStep
      match get_bounding_box? s a with
      | none => exact ⟨le_refl _, le_refl _, le_refl _, le_refl _⟩
      | some bb =>
        exact ⟨min_le_left _ _, min_le_left _ _, le_max_left _ _, le_max_left _ _⟩
    have h2 := ih (bbStep s acc a)
    simp only [List.foldl_cons]
    exact ⟨le_trans h2.1 hstep.1, le_trans h2.2.1 hstep.2.1,
      le_trans hstep.2.2.1 h2.2.2.1, le_trans hstep.2.2.2 h2.2.2.2⟩

theorem bbFold_mem (s : Scene) (l : List Nat) :
    ∀ (acc : ℚ × ℚ × ℚ × ℚ) (c : Nat) (bb : Rect), c ∈ l →
    get_bounding_box? s c = some bb →
    (l.foldl (bbStep s) acc).1 ≤ bb.x ∧
    (l.foldl (bbStep s) acc).2.1 ≤ bb.y ∧
    bb.x + bb.width ≤ (l.foldl (bbStep s) acc).2.2.1 ∧
    bb.y + bb.height ≤ (l.foldl (bbStep s) acc).2.2.2 := by
  induction l with
  | nil => intro acc c bb h; cases h
  | cons a t ih =>
    intro acc c bb h hbb
    rcases List.mem_cons.mp h with h1 | h1
    · subst h1
      simp only [List.foldl_cons]
      have hstep : (bbStep s acc c).1 ≤ bb.x ∧ (bbStep s acc c).2.1 ≤ bb.y ∧
          bb.x + bb.width ≤ (bbStep s acc c).2.2.1 ∧
          bb.y + bb.height ≤ (bbStep s acc c).2.2.2 := by
        unfold bbStep
        rw [hbb]
        exact ⟨min_le_right _ _, min_le_right _ _, le_max_right _ _, le_max_right _ _⟩
      have h2 := bbFold_mono s t (bbStep s acc c)
      exact ⟨le_trans h2.1 hstep.1, le_trans h2.2.1 hstep.2.1,
        le_trans hstep.2.2.1 h2.2.2.1, le_trans hstep.2.2.2 h2.2.2.2⟩
    · simp only [List.foldl_cons]
      exact ih (bbStep s acc a) c bb h1 hbb

theorem bbFold_none (s : Scene) (l : List Nat) :
    ∀ acc : ℚ × ℚ × ℚ × ℚ, (∀ c ∈ l, get_bounding_box? s c = none) →
    l.foldl (bbStep s) acc = acc := by
  induction l with
  | nil => intro acc h; rfl
  | cons a t ih =>
    intro acc h
    simp only [List.foldl_cons]
    have ha : bbStep s acc a = acc := by
      unfold bbStep
      rw [h a (List.mem_cons_self a t)]
    rw [ha]
    exact ih acc (fun c hc => h c (List.mem_cons_of_mem a hc))

/-- C8: confirmed. `get_children_bounding_box` accumulates min/max extents
over the immediate children that expose a bounding box, skipping the rest;
the fold is seeded at the origin `(0,0,0,0)`, so the result always contains
the local origin, and with no eligible children it is exactly `(0,0,0,0)`. -/
theorem C8_children_bbox (s : Scene) (id : Nat) :
    ((get_children_bounding_box s id).x ≤ 0 ∧
     (get_children_bounding_box s id).y ≤ 0 ∧
     0 ≤ (get_children_bounding_box s id).x + (get_children_bounding_box s id).width ∧
     0 ≤ (get_children_bounding_box s id).y + (get_children_bounding_box s id).height) ∧
    (∀ c ∈ (s.get id).children, ∀ bb : Rect, get_bounding_box? s c = some bb →
      (get_children_bounding_box s id).x ≤ bb.x ∧
      (get_children_bounding_box s id).y ≤ bb.y ∧
      bb.x + bb.width ≤
        (get_children_bounding_box s id).x + (get_children_bounding_box s id).width ∧
      bb.y + bb.height ≤
        (get_children_bounding_box s id).y + (get_children_bounding_box s id).height) ∧
    ((∀ c ∈ (s.get id).children, get_bounding_box? s c = none) →
      get_children_bounding_box s id = ⟨0, 0, 0, 0⟩) := by
  refine ⟨?_, ?_, ?_⟩
  · have h := bbFold_mono s (s.get id).children ((0, 0, 0, 0) : ℚ × ℚ × ℚ × ℚ)
    have ha : (List.foldl (bbStep s) ((0, 0, 0, 0) : ℚ × ℚ × ℚ × ℚ)
        (s.get id).children).1 ≤ 0 := h.1
    have hb : (List.foldl (bbStep s) ((0, 0, 0, 0) : ℚ × ℚ × ℚ × ℚ)
        (s.get id).children).2.1 ≤ 0 := h.2.1
    have hc2 : 0 ≤ (List.foldl (bbStep s) ((0, 0, 0, 0) : ℚ × ℚ × ℚ × ℚ)
        (s.get id).children).2.2.1 := h.2.2.1
    have hd : 0 ≤ (List.foldl (bbStep s) ((0, 0, 0, 0) : ℚ × ℚ × ℚ × ℚ)
        (s.get id).children).2.2.2 := h.2.2.2
    unfold get_children_bounding_box
    refine ⟨ha, hb, ?_, ?_⟩
    · simp only
      linarith
    · simp only
      linarith
  · intro c hc bb hbb
    have h := bbFold_mem s (s.get id).children ((0, 0, 0, 0) : ℚ × ℚ × ℚ × ℚ) c bb hc hbb
    unfold get_children_bounding_box
    refine ⟨h.1, h.2.1, ?_, ?_⟩
    · have := h.2.2.1
      simp only
      linarith
    · have := h.2.2.2
      simp only
      linarith
  · intro h
    unfold get_children_bounding_box
    rw [bbFold_none s (s.get id).children _ h]
    norm_num

/-- C8 witness: a node with a `RectRenderer` child far from the origin, a
`Level` child with no box, probed against the general theorem; and the
no-eligible-children case. -/
theorem C8_children_bbox_witness :
    ((get_children_bounding_box
        ⟨[{ NodeData.base .plain with children := [1, 2] },
          { NodeData.base .rectR with rect := ⟨5, 6, 2, 3⟩ },
          NodeData.base .level]⟩ 0).x ≤ 0 ∧
      (get_children_bounding_box
        ⟨[{ NodeData.base .plain with children := [1, 2] },
          { NodeData.base .rectR with rect := ⟨5, 6, 2, 3⟩ },
          NodeData.base .level]⟩ 0).y ≤ 0) ∧
    ((get_children_bounding_box
        ⟨[{ NodeData.base .plain with children := [1, 2] },
          { NodeData.base .rectR with rect := ⟨5, 6, 2, 3⟩ },
          NodeData.base .level]⟩ 0).x ≤ (5 : ℚ)) ∧
    get_children_bounding_box
        ⟨[{ NodeData.base .plain with children := [1] }, NodeData.base .level]⟩ 0 =
      ⟨0, 0, 0, 0⟩ :=
  ⟨⟨(C8_children_bbox _ 0).1.1, (C8_children_bbox _ 0).1.2.1⟩,
   ((C8_children_bbox
      ⟨[{ NodeData.base .plain with children := [1, 2] },
        { NodeData.base .rectR with rect := ⟨5, 6, 2, 3⟩ },
        NodeData.base .level]⟩ 0).2.1 1 (by decide) ⟨5, 6, 2, 3⟩
      (by with_unfolding_all rfl)).1,
   (C8_children_bbox
      ⟨[{ NodeData.base .plain with children := [1] }, NodeData.base .level]⟩ 0).2.2
      (by intro c hc
          have h2 : c ∈ [1] := hc
          have h3 : c = 1 := by simpa using h2
          subst h3
          with_unfolding_all rfl)⟩

/-- C1: the `initialized` guard lives in `Node::init` only; `Level::init`
constructs its three children with `add_child` before delegating to
`Base::init()`, so a second `init()` call on a level duplicates the Grid,
Player and Satellite children instead of being a no-op. -/
theorem C1_level_init_twice :
    ((Node.init 6 (⟨[NodeData.base .level]⟩ : Scene) 0).get 0).children = [1, 2, 3] ∧
    ((Node.init 6 (Node.init 6 (⟨[NodeData.base .level]⟩ : Scene) 0) 0).get 0).children
      = [1, 2, 3, 4, 5, 6] ∧
    ([1, 2, 3] : List Nat).length ≠ ([1, 2, 3, 4, 5, 6] : List Nat).length :=
  ⟨by with_unfolding_all rfl, by with_unfolding_all rfl, by decide⟩

/-- C2: corrected. The `visible`/`active` guard sits in the `Node` base
methods only: it stops the recursion into children (so a plain node's
subtree is fully skipped), but an override's own work runs before the base
call — an invisible `RectRenderer` still draws its own rectangle. -/
theorem C2_flag_gates :
    (∀ (s : Scene) (id f : Nat), (s.get id).kind = .plain →
      (s.get id).visible = false → renderNode s (f + 1) id = []) ∧
    (∀ (s : Scene) (id f : Nat) (k : Keys), (s.get id).kind = .plain →
      (s.get id).active = false → sceneOp k (f + 1) .update s id = s) ∧
    (∀ (s : Scene) (id f : Nat), (s.get id).kind = .rectR →
      (s.get id).visible = false →
      renderNode s (f + 1) id =
        (if (s.get id).rounding > 0 then
          [.rectRounded (get_global_rect s (f + 1) id (s.get id).rect)
            (s.get id).rounding (s.get id).color]
        else
          [.rectFill (get_global_rect s (f + 1) id (s.get id).rect)
            (s.get id).color])) := by
  refine ⟨?_, ?_, ?_⟩
  · intro s id f hk hv
    simp [renderNode, hk, hv]
  · intro s id f k hk ha
    simp [sceneOp, hk, ha]
  · intro s id f hk hv
    simp [renderNode, hk, hv]

/-- C2 witness: an invisible plain node with a child renders nothing; an
inactive plain node's update is the identity; an invisible sharp-cornered
`RectRenderer` still emits its own rectangle fill. -/
theorem C2_flag_gates_witness :
    renderNode c2aScene 3 0 = [] ∧
    sceneOp noKeys 3 .update c2bScene 0 = c2bScene ∧
    renderNode c2cScene 3 0 =
      (if (c2cScene.get 0).rounding > 0 then
        [.rectRounded (get_global_rect c2cScene 3 0 (c2cScene.get 0).rect)
          (c2cScene.get 0).rounding (c2cScene.get 0).color]
      else
        [.rectFill (get_global_rect c2cScene 3 0 (c2cScene.get 0).rect)
          (c2cScene.get 0).color]) :=
  ⟨C2_flag_gates.1 c2aScene 0 2 rfl rfl,
   C2_flag_gates.2.1 c2bScene 0 2 noKeys rfl rfl,
   C2_flag_gates.2.2 c2cScene 0 2 rfl rfl⟩

set_option maxHeartbeats 3000000 in
theorem c3Scene0_eq : c3Scene0 = c3Scene 0 0 ⟨0, 0⟩ := by
  with_unfolding_all rfl

theorem c3Scene_get2 (gx gy : Int) (p : V2) :
    (c3Scene gx gy p).get 2 =
      { c3Player with grid_x := gx, grid_y := gy, position := p } := rfl

/-- One frame with only the right-move key down. -/
theorem c3_step_d (gx gy : Int) (p : V2) :
    Node.update ⟨false, false, false, true⟩ 6 (c3Scene gx gy p) 0 =
    c3Scene (stdClamp (gx + 0 + 1) 0 7) (stdClamp (gy + 0 + 0) 0 6)
      ⟨0 + ((stdClamp (gx + 0 + 1) 0 7 : Int) : ℚ) * 10,
       0 + ((stdClamp (gy + 0 + 0) 0 6 : Int) : ℚ) * 10⟩ := by
  with_unfolding_all rfl

theorem c3RunD_eq : ∀ n, c3RunD n =
    c3Scene (min (n : Int) 7) 0
      ⟨0 + ((min (n : Int) 7 : Int) : ℚ) * 10, 0 + ((0 : Int) : ℚ) * 10⟩ := by
  intro n
  induction n with
  | zero =>
    rw [c3RunD, c3Scene0_eq]
    norm_num
  | succ n ih =>
    rw [c3RunD, ih, c3_step_d]
    have e1 : stdClamp (min ((n : Nat) : Int) 7 + 0 + 1) 0 7
        = min (((n + 1 : Nat)) : Int) 7 := by
      unfold stdClamp
      push_cast
      split_ifs <;> omega
    have e2 : stdClamp ((0 : Int) + 0 + 0) 0 6 = (0 : Int) := by decide
    rw [e1, e2]

/-- C3: corrected. Three simultaneous right+down presses from cell (0,0) do
land the player on cell (3,3); but the player is clamped with
`Grid::clamp_point`, whose range on the 7×6 grid is `[0,7] × [0,6]` — one
past the last cell — so `grid_x` reaches 7, not the claimed cap of 6. -/
theorem C3_player_clamped :
    (((Node.update ⟨false, true, false, true⟩ 6
        (Node.update ⟨false, true, false, true⟩ 6
          (Node.update ⟨false, true, false, true⟩ 6 c3Scene0 0) 0) 0).get 2).grid_x = 3 ∧
     ((Node.update ⟨false, true, false, true⟩ 6
        (Node.update ⟨false, true, false, true⟩ 6
          (Node.update ⟨false, true, false, true⟩ 6 c3Scene0 0) 0) 0).get 2).grid_y = 3) ∧
    (∀ n, ((c3RunD n).get 2).grid_x = min (n : Int) 7 ∧
      ((c3RunD n).get 2).grid_y = 0) ∧
    (∀ n, 0 ≤ ((c3RunD n).get 2).grid_x ∧ ((c3RunD n).get 2).grid_x ≤ 7) := by
  refine ⟨⟨?_, ?_⟩, ?_, ?_⟩
  · rw [c3Scene0_eq]
    with_unfolding_all rfl
  · rw [c3Scene0_eq]
    with_unfolding_all rfl
  · intro n
    rw [c3RunD_eq n, c3Scene_get2]
    exact ⟨rfl, rfl⟩
  · intro n
    rw [c3RunD_eq n, c3Scene_get2]
    constructor
    · show (0 : Int) ≤ min ((n : Nat) : Int) 7
      omega
    · show min ((n : Nat) : Int) 7 ≤ 7
      omega

/-- C3 witness: after nine right-presses the formula caps the cell at 7. -/
theorem C3_player_clamped_witness :
    ((c3RunD 9).get 2).grid_x = min ((9 : Nat) : Int) 7 :=
  (C3_player_clamped.2.1 9).1

/-- C3 counterexample: seven right-presses drive `grid_x` to 7, violating
the claimed bound `grid_x ≤ 6` (`clamp_point`, not `clamp_cell`, is used). -/
theorem C3_counterexample :
    ((c3RunD 7).get 2).grid_x = 7 ∧ ¬ ((c3RunD 7).get 2).grid_x ≤ 6 := by
  rw [c3RunD_eq 7, c3Scene_get2]
  exact ⟨by decide, by decide⟩

/-- C2 counterexample: an invisible `RectRenderer` still emits its own
rectangle; an inactive player still moves on a key press (its override body
runs after `Base::update` returns early). -/
theorem C2_counterexample :
    (c2cScene.get 0).visible = false ∧
    renderNode c2cScene 3 0 = [.rectFill ⟨1, 2, 3, 4⟩ WHITE] ∧
    ([RCmd.rectFill ⟨1, 2, 3, 4⟩ WHITE] : List RCmd) ≠ [] ∧
    (c2Scene.get 2).active = false ∧
    (c2Scene.get 2).grid_x = 0 ∧
    ((Node.update ⟨false, false, false, true⟩ 6 c2Scene 0).get 2).grid_x = 1 := by
  refine ⟨by with_unfolding_all rfl, by with_unfolding_all rfl, by simp,
    by with_unfolding_all rfl, by with_unfolding_all rfl, by with_unfolding_all rfl⟩

theorem addChild_unfold (k : Keys) (fuel : Nat) (s : Scene) (p c : Nat) :
    sceneOp k (fuel + 1) (.addChild c) s p = addChildRun k fuel s p c := rfl

theorem Scene.get_set_children (s : Scene) (c : Nat) (d : NodeData)
    (hd : d.children = (s.get c).children) :
    ((s.set c d).get c).children = (s.get c).children := by
  by_cases hl : c < s.nodes.length
  · rw [Scene.get_set_self s c _ hl, hd]
  · rw [Scene.set_out s c _ (by omega)]

theorem init_plain_effect (k : Keys) (fuel : Nat) (s : Scene) (c : Nat)
    (hkind : (s.get c).kind = .plain) (hch : (s.get c).children = []) :
    sceneOp k (fuel + 2) .init s c =
      (if (s.get c).initialized then s
       else s.set c { s.get c with initialized := true }) := by
  simp only [sceneOp, hkind]
  split_ifs with h
  · rfl
  · rw [Scene.get_set_children s c, hch]
    rfl
    rfl

theorem activate_effect (k : Keys) (fuel : Nat) (s : Scene) (c : Nat)
    (hch : (s.get c).children = []) :
    sceneOp k (fuel + 2) .activate s c = s.set c { s.get c with active := true } := by
  simp only [sceneOp]
  rw [Scene.get_set_children s c, hch]
  rfl
  rfl

theorem setVisible_effect (k : Keys) (fuel : Nat) (v : Bool) (s : Scene) (c : Nat)
    (hch : (s.get c).children = []) :
    sceneOp k (fuel + 2) (.setVisible v) s c
      = s.set c { s.get c with visible := v } := by
  simp only [sceneOp]
  rw [Scene.get_set_children s c, hch]
  rfl
  rfl

/-- C10: confirmed. `add_child` sets the child's parent back-reference,
appends it, and replays only the lifecycle stages whose flag is set on the
receiver: a freshly constructed child under an initialized parent is
initialized; under an inactive parent no `deactivate` is invoked and under
an invisible parent no `set_visible(false)` is invoked, so the child keeps
its own default `active = visible = true`. -/
theorem C10_add_child_replay (s : Scene) (p c : Nat) (k : Keys) (fuel : Nat)
    (hp : p < s.nodes.length) (hc : c < s.nodes.length) (hpc : p ≠ c)
    (hcd : s.get c = NodeData.base .plain) :
    ((sceneOp k (fuel + 2 + 1) (.addChild c) s p).get c).parent = some p ∧
    ((sceneOp k (fuel + 2 + 1) (.addChild c) s p).get p).children
      = (s.get p).children ++ [c] ∧
    ((sceneOp k (fuel + 2 + 1) (.addChild c) s p).get c).initialized
      = (s.get p).initialized ∧
    ((sceneOp k (fuel + 2 + 1) (.addChild c) s p).get c).active = true ∧
    ((sceneOp k (fuel + 2 + 1) (.addChild c) s p).get c).visible = true := by
  rw [addChild_unfold]
  have hg1c : (addChildStep1 s p c).get c = { s.get c with parent := some p } := by
    unfold addChildStep1
    exact Scene.get_set_self s c _ hc
  have hg1p : (addChildStep1 s p c).get p = s.get p := by
    unfold addChildStep1
    exact Scene.get_set_ne s c p _ (fun h => hpc h.symm)
  have hlen1 : (addChildStep1 s p c).nodes.length = s.nodes.length := by
    unfold addChildStep1
    exact Scene.length_set s c _
  have hg2p : (addChildStep2 s p c).get p
      = { s.get p with children := (s.get p).children ++ [c] } := by
    unfold addChildStep2
    rw [Scene.get_set_self _ p _ (by rw [hlen1]; exact hp), hg1p]
  have hg2c : (addChildStep2 s p c).get c
      = { NodeData.base .plain with parent := some p } := by
    unfold addChildStep2
    rw [Scene.get_set_ne _ p c _ hpc, hg1c, hcd]
  have hlen2 : (addChildStep2 s p c).nodes.length = s.nodes.length := by
    unfold addChildStep2
    rw [Scene.length_set, hlen1]
  have hg3c : (addChildStep3 k (fuel + 2) s p c).get c
      = { NodeData.base .plain with parent := some p, initialized := (s.get p).initialized } := by
    unfold addChildStep3
    have hcond : ((addChildStep2 s p c).get p).initialized
        = (s.get p).initialized := by rw [hg2p]
    rw [hcond]
    cases hI : (s.get p).initialized with
    | true =>
      rw [if_pos rfl,
        init_plain_effect k fuel (addChildStep2 s p c) c (by rw [hg2c]; rfl)
          (by rw [hg2c]; rfl)]
      have hini2 : ((addChildStep2 s p c).get c).initialized = false := by
        rw [hg2c]
        rfl
      rw [hini2, if_neg (by decide : ¬ (false = true))]
      rw [Scene.get_set_self _ c _ (by rw [hlen2]; exact hc), hg2c]
    | false =>
      rw [if_neg (by decide : ¬ (false = true)), hg2c]
      rfl
  have hg3p : (addChildStep3 k (fuel + 2) s p c).get p
      = { s.get p with children := (s.get p).children ++ [c] } := by
    unfold addChildStep3
    have hcond : ((addChildStep2 s p c).get p).initialized
        = (s.get p).initialized := by rw [hg2p]
    rw [hcond]
    cases hI : (s.get p).initialized with
    | true =>
      rw [if_pos rfl,
        init_plain_effect k fuel (addChildStep2 s p c) c (by rw [hg2c]; rfl)
          (by rw [hg2c]; rfl)]
      have hini2 : ((addChildStep2 s p c).get c).initialized = false := by
        rw [hg2c]
        rfl
      rw [hini2, if_neg (by decide : ¬ (false = true)),
        Scene.get_set_ne _ c p _ (fun h => hpc h.symm), hg2p]
    | false =>
      rw [if_neg (by decide : ¬ (false = true)), hg2p]
  have hlen3 : (addChildStep3 k (fuel + 2) s p c).nodes.length = s.nodes.length := by
    unfold addChildStep3
    have hcond : ((addChildStep2 s p c).get p).initialized
        = (s.get p).initialized := by rw [hg2p]
    rw [hcond]
    cases hI : (s.get p).initialized with
    | true =>
      rw [if_pos rfl,
        init_plain_effect k fuel (addChildStep2 s p c) c (by rw [hg2c]; rfl)
          (by rw [hg2c]; rfl)]
      have hini2 : ((addChildStep2 s p c).get c).initialized = false := by
        rw [hg2c]
        rfl
      rw [hini2, if_neg (by decide : ¬ (false = true)), Scene.length_set, hlen2]
    | false =>
      rw [if_neg (by decide : ¬ (false = true)), hlen2]
  have hg4c : (addChildStep4 k (fuel + 2) s p c).get c
      = { NodeData.base .plain with parent := some p, initialized := (s.get p).initialized } := by
    unfold addChildStep4
    have hcond : ((addChildStep3 k (fuel + 2) s p c).get p).active
        = (s.get p).active := by rw [hg3p]
    rw [hcond]
    cases hA : (s.get p).active with
    | true =>
      rw [if_pos rfl,
        activate_effect k fuel (addChildStep3 k (fuel + 2) s p c) c
          (by rw [hg3c]; rfl),
        Scene.get_set_self _ c _ (by rw [hlen3]; exact hc), hg3c]
      rfl
    | false =>
      rw [if_neg (by decide : ¬ (false = true)), hg3c]
  have hg4p : (addChildStep4 k (fuel + 2) s p c).get p
      = { s.get p with children := (s.get p).children ++ [c] } := by
    unfold addChildStep4
    have hcond : ((addChildStep3 k (fuel + 2) s p c).get p).active
        = (s.get p).active := by rw [hg3p]
    rw [hcond]
    cases hA : (s.get p).active with
    | true =>
      rw [if_pos rfl,
        activate_effect k fuel (addChildStep3 k (fuel + 2) s p c) c
          (by rw [hg3c]; rfl),
        Scene.get_set_ne _ c p _ (fun h => hpc h.symm), hg3p]
    | false =>
      rw [if_neg (by decide : ¬ (false = true)), hg3p]
  have hlen4 : (addChildStep4 k (fuel + 2) s p c).nodes.length = s.nodes.length := by
    unfold addChildStep4
    have hcond : ((addChildStep3 k (fuel + 2) s p c).get p).active
        = (s.get p).active := by rw [hg3p]
    rw [hcond]
    cases hA : (s.get p).active with
    | true =>
      rw [if_pos rfl,
        activate_effect k fuel (addChildStep3 k (fuel + 2) s p c) c
          (by rw [hg3c]; rfl), Scene.length_set, hlen3]
    | false =>
      rw [if_neg (by decide : ¬ (false = true)), hlen3]
  have hg5c : (addChildRun k (fuel + 2) s p c).get c
      = { NodeData.base .plain with parent := some p, initialized := (s.get p).initialized } := by
    unfold addChildRun
    have hcond : ((addChildStep4 k (fuel + 2) s p c).get p).visible
        = (s.get p).visible := by rw [hg4p]
    rw [hcond]
    cases hV : (s.get p).visible with
    | true =>
      rw [if_pos rfl,
        setVisible_effect k fuel true
          (addChildStep4 k (fuel + 2) s p c) c (by rw [hg4c]; rfl),
        Scene.get_set_self _ c _ (by rw [hlen4]; exact hc), hg4c]
      rfl
    | false =>
      rw [if_neg (by decide : ¬ (false = true)), hg4c]
  have hg5p : (addChildRun k (fuel + 2) s p c).get p
      = { s.get p with children := (s.get p).children ++ [c] } := by
    unfold addChildRun
    have hcond : ((addChildStep4 k (fuel + 2) s p c).get p).visible
        = (s.get p).visible := by rw [hg4p]
    rw [hcond]
    cases hV : (s.get p).visible with
    | true =>
      rw [if_pos rfl,
        setVisible_effect k fuel true
          (addChildStep4 k (fuel + 2) s p c) c (by rw [hg4c]; rfl),
        Scene.get_set_ne _ c p _ (fun h => hpc h.symm), hg4p]
    | false =>
      rw [if_neg (by decide : ¬ (false = true)), hg4p]
  rw [hg5c, hg5p]
  exact ⟨rfl, rfl, rfl, rfl, rfl⟩

/-- C10 witness: a fresh default child added under a parent that is
initialized but inactive: the child is initialized and appended, its parent
back-reference set, and it keeps `active = visible = true`. -/
theorem C10_add_child_replay_witness :
    ((sceneOp noKeys 3 (.addChild 1)
        (⟨[{ NodeData.base .plain with initialized := true, active := false },
           NodeData.base .plain]⟩ : Scene) 0).get 1).parent = some 0 ∧
    ((sceneOp noKeys 3 (.addChild 1)
        (⟨[{ NodeData.base .plain with initialized := true, active := false },
           NodeData.base .plain]⟩ : Scene) 0).get 0).children = [] ++ [1] ∧
    ((sceneOp noKeys 3 (.addChild 1)
        (⟨[{ NodeData.base .plain with initialized := true, active := false },
           NodeData.base .plain]⟩ : Scene) 0).get 1).initialized = true ∧
    ((sceneOp noKeys 3 (.addChild 1)
        (⟨[{ NodeData.base .plain with initialized := true, active := false },
           NodeData.base .plain]⟩ : Scene) 0).get 1).active = true ∧
    ((sceneOp noKeys 3 (.addChild 1)
        (⟨[{ NodeData.base .plain with initialized := true, active := false },
           NodeData.base .plain]⟩ : Scene) 0).get 1).visible = true := by
  have h := C10_add_child_replay
    (⟨[{ NodeData.base .plain with initialized := true, active := false },
       NodeData.base .plain]⟩ : Scene) 0 1 noKeys 0
    (by decide) (by decide) (by decide) rfl
  exact ⟨h.1, h.2.1, h.2.2.1, h.2.2.2.1, h.2.2.2.2⟩

end Echo
